import Mathlib

/-!
Verification of the geometric kernel of the SAE_Voronoi repository:
shallow embeddings (over exact rationals) of the Bowyer-Watson Delaunay
builders, the in-circumcircle predicates, the Sutherland-Hodgman polygon
clippers and the Voronoi cell builders of the several source variants
(Phase_2/CLAUDE, Phase_2/CHATGPT, Phase_2/COPILOT, Phase_1), together with
theorems settling the spec claims about them.
-/

/-- A 2D point, as in the sources: a pair of coordinates. -/
abbrev Pt := ℚ × ℚ

namespace Claude

/-- Tolerance constant from Phase_2/CLAUDE geometry/primitives.py. -/
def EPS : ℚ := 1/1000000000

/-- Embeds `pts_equal` (primitives.py): coordinatewise equality up to EPS. -/
def pts_equal (a b : Pt) : Bool :=
  decide (|a.1 - b.1| < EPS) && decide (|a.2 - b.2| < EPS)

/-- Embeds `edge_equal` (primitives.py): undirected edge identity up to EPS. -/
def edge_equal (e1 e2 : Pt × Pt) : Bool :=
  (pts_equal e1.1 e2.1 && pts_equal e1.2 e2.2) ||
  (pts_equal e1.1 e2.2 && pts_equal e1.2 e2.1)

/-- Embeds the `Triangle` class of Phase_2/CLAUDE geometry/triangle.py. -/
structure Triangle where
  a : Pt
  b : Pt
  c : Pt
deriving DecidableEq

/-- The determinant `D` of `Triangle._compute_circumcircle`: twice the signed
doubled area of the triangle. -/
def Triangle.circumD (t : Triangle) : ℚ :=
  2 * (t.a.1 * (t.b.2 - t.c.2) + t.b.1 * (t.c.2 - t.a.2) + t.c.1 * (t.a.2 - t.b.2))

/-- Embeds `Triangle._compute_circumcircle`: `none` models the degenerate
sentinel `(inf, inf)` center with infinite radius, `some ((ux,uy), r2)` the
computed circumcenter and squared circumradius. -/
def Triangle.circumcircle (t : Triangle) : Option (Pt × ℚ) :=
  let D := t.circumD
  if |D| < EPS then none
  else
    let a2 := t.a.1 * t.a.1 + t.a.2 * t.a.2
    let b2 := t.b.1 * t.b.1 + t.b.2 * t.b.2
    let c2 := t.c.1 * t.c.1 + t.c.2 * t.c.2
    let ux := (a2 * (t.b.2 - t.c.2) + b2 * (t.c.2 - t.a.2) + c2 * (t.a.2 - t.b.2)) / D
    let uy := (a2 * (t.c.1 - t.b.1) + b2 * (t.a.1 - t.c.1) + c2 * (t.b.1 - t.a.1)) / D
    some ((ux, uy), (t.a.1 - ux) ^ 2 + (t.a.2 - uy) ^ 2)

/-- Embeds `Triangle.in_circumcircle`: strictly inside the circumcircle with
an EPS margin; a degenerate triangle contains no point. -/
def Triangle.in_circumcircle (t : Triangle) (p : Pt) : Bool :=
  match t.circumcircle with
  | none => false
  | some (cc, r2) =>
      decide ((p.1 - cc.1) * (p.1 - cc.1) + (p.2 - cc.2) * (p.2 - cc.2) < r2 - EPS)

/-- Embeds `Triangle.edges`: the three directed edges. -/
def Triangle.edges (t : Triangle) : List (Pt × Pt) :=
  [(t.a, t.b), (t.b, t.c), (t.c, t.a)]

/-- Embeds `Triangle.has_supervertex`: some vertex is EPS-equal to a vertex
of the super triangle. -/
def Triangle.has_supervertex (t : Triangle) (super_verts : List Pt) : Bool :=
  super_verts.any (fun s => pts_equal t.a s || pts_equal t.b s || pts_equal t.c s)

/-- Minimum of a coordinate list (the sources only call it on nonempty lists). -/
def listMin : List ℚ → ℚ
  | [] => 0
  | x :: xs => xs.foldl min x

/-- Maximum of a coordinate list (the sources only call it on nonempty lists). -/
def listMax : List ℚ → ℚ
  | [] => 0
  | x :: xs => xs.foldl max x

/-- Embeds `_build_super_triangle` (algorithms/delaunay.py): a large triangle
around the cloud; the `or 1.0` of the source maps a zero extent to 1. -/
def build_super_triangle (points : List Pt) : Triangle :=
  let xs := points.map Prod.fst
  let ys := points.map Prod.snd
  let mn_x := listMin xs
  let mx_x := listMax xs
  let mn_y := listMin ys
  let mx_y := listMax ys
  let dx := if mx_x - mn_x = 0 then 1 else mx_x - mn_x
  let dy := if mx_y - mn_y = 0 then 1 else mx_y - mn_y
  let delta := max dx dy * 20
  let mid_x := (mn_x + mx_x) / 2
  let mid_y := (mn_y + mx_y) / 2
  ⟨(mid_x - 2 * delta, mid_y - delta),
   (mid_x, mid_y + 2 * delta),
   (mid_x + 2 * delta, mid_y - delta)⟩

/-- Embeds `_find_bad_triangles`: triangles whose circumcircle contains the point. -/
def find_bad_triangles (point : Pt) (triangulation : List Triangle) : List Triangle :=
  triangulation.filter (fun t => t.in_circumcircle point)

/-- Embeds `_find_boundary`: edges owned by exactly one bad triangle.  The
source compares triangles by object identity (`other is not tri`); positions
in the list play that role here. -/
def find_boundary (bad : List Triangle) : List (Pt × Pt) :=
  bad.enum.foldr (fun (ti : Nat × Triangle) acc =>
    ti.2.edges.filter (fun e =>
      !(bad.enum.any (fun oj =>
        decide (oj.1 ≠ ti.1) && oj.2.edges.any (fun oe => edge_equal e oe)))) ++ acc) []

/-- Embeds `bowyer_watson` (Phase_2/CLAUDE algorithms/delaunay.py): incremental
insertion into a super triangle, then removal of triangles touching it. -/
def bowyer_watson (points : List Pt) : List Triangle :=
  if points.length < 3 then []
  else
    let st := build_super_triangle points
    let super_verts := [st.a, st.b, st.c]
    let tris := points.foldl (fun triangulation point =>
      let bad := find_bad_triangles point triangulation
      let boundary := find_boundary bad
      let removed := bad.foldl (fun l t => l.erase t) triangulation
      removed ++ boundary.map (fun e => Triangle.mk e.1 e.2 point)) [st]
    tris.filter (fun t => !(t.has_supervertex super_verts))

/-- Embeds `_clip_half_plane` (algorithms/clipping.py).  The source walks the
vertices by index, pairing `polygon[idx]` with `polygon[(idx-1) % n]`; here the
same (previous, current) pairs are formed by rotating the list right by one. -/
def clip_half_plane (polygon : List Pt) (inside_fn : Pt → Bool)
    (intersect_fn : Pt → Pt → Pt) : List Pt :=
  match polygon with
  | [] => []
  | p :: ps =>
    let input := p :: ps
    let prevs := ps.getLastD p :: input.dropLast
    (prevs.zip input).foldr (fun pc acc =>
      (if inside_fn pc.2 then
        (if inside_fn pc.1 then [pc.2] else [intersect_fn pc.1 pc.2, pc.2])
       else if inside_fn pc.1 then [intersect_fn pc.1 pc.2] else []) ++ acc) []

/-- Embeds `_intersect_vertical`: intersection with the line x = x0, with the
near-zero fallback to direct projection. -/
def intersect_vertical (p1 p2 : Pt) (x : ℚ) : Pt :=
  let dx := p2.1 - p1.1
  if |dx| < EPS then (x, p1.2)
  else
    let t := (x - p1.1) / dx
    (x, p1.2 + t * (p2.2 - p1.2))

/-- Embeds `_intersect_horizontal`: intersection with the line y = y0, with the
near-zero fallback to direct projection. -/
def intersect_horizontal (p1 p2 : Pt) (y : ℚ) : Pt :=
  let dy := p2.2 - p1.2
  if |dy| < EPS then (p1.1, y)
  else
    let t := (y - p1.2) / dy
    (p1.1 + t * (p2.1 - p1.1), y)

/-- Embeds `sutherland_hodgman` (algorithms/clipping.py): four successive
half-plane clips against the rectangle sides (left, right, bottom, top). -/
def sutherland_hodgman (polygon : List Pt) (xmin xmax ymin ymax : ℚ) : List Pt :=
  let poly1 := clip_half_plane polygon
    (fun p => decide (xmin ≤ p.1)) (fun a b => intersect_vertical a b xmin)
  let poly2 := clip_half_plane poly1
    (fun p => decide (p.1 ≤ xmax)) (fun a b => intersect_vertical a b xmax)
  let poly3 := clip_half_plane poly2
    (fun p => decide (ymin ≤ p.2)) (fun a b => intersect_horizontal a b ymin)
  clip_half_plane poly3
    (fun p => decide (p.2 ≤ ymax)) (fun a b => intersect_horizontal a b ymax)

end Claude

/-- Rank of a vector in the angular order of `math.atan2(y, x)` values in
(-pi, pi]: negative-y vectors first, then angle 0 (including the zero vector,
since atan2(0,0) = 0), then positive-y vectors, then angle pi. -/
def atanClass (p : Pt) : Nat :=
  if p.2 < 0 then 0
  else if p.2 = 0 ∧ 0 ≤ p.1 then 1
  else if 0 < p.2 then 2
  else 3

/-- Cross product of two vectors. -/
def cross (u v : Pt) : ℚ := u.1 * v.2 - u.2 * v.1

/-- Exact comparison `atan2(u.2, u.1) < atan2(v.2, v.1)`: compare the angular
rank first; inside an open half plane the cross product decides. -/
def angLt (u v : Pt) : Bool :=
  let cu := atanClass u
  let cv := atanClass v
  if cu ≠ cv then decide (cu < cv)
  else if cu = 0 ∨ cu = 2 then decide (0 < cross u v)
  else false

/-- Stable insertion into an ascending list: the new element goes in front of
the first element not strictly below it. -/
def insSorted (lt : Pt → Pt → Bool) (x : Pt) : List Pt → List Pt
  | [] => [x]
  | y :: ys => if lt y x then y :: insSorted lt x ys else x :: y :: ys

/-- Stable ascending sort, modelling Python `sorted`/`list.sort` with a key:
equal keys keep their original relative order. -/
def sortByAngle (lt : Pt → Pt → Bool) : List Pt → List Pt
  | [] => []
  | x :: xs => insSorted lt x (sortByAngle lt xs)

namespace ChatGPT

/-- Tolerance constant from Phase_2/CHATGPT app/domain/geometry.py. -/
def EPS : ℚ := 1/10000000000

/-- Embeds the `Edge` dataclass of app/domain/geometry.py. -/
structure Edge where
  a : Pt
  b : Pt
deriving DecidableEq

/-- Lexicographic comparison of two coordinate 4-tuples, as Python compares
`(a1, a2, a3, a4) <= (b1, b2, b3, b4)`. -/
def lexLe4 (a1 a2 a3 a4 b1 b2 b3 b4 : ℚ) : Bool :=
  if a1 < b1 then true else if b1 < a1 then false
  else if a2 < b2 then true else if b2 < a2 then false
  else if a3 < b3 then true else if b3 < a3 then false
  else decide (a4 ≤ b4)

/-- Embeds `Edge.normalized`: order-independent identity for boundary detection. -/
def Edge.normalized (e : Edge) : Edge :=
  if lexLe4 e.a.1 e.a.2 e.b.1 e.b.2 e.b.1 e.b.2 e.a.1 e.a.2 then e else ⟨e.b, e.a⟩

/-- Embeds the `Triangle` dataclass of app/domain/geometry.py. -/
structure Triangle where
  a : Pt
  b : Pt
  c : Pt
deriving DecidableEq

/-- Embeds `Triangle.vertices`. -/
def Triangle.vertices (t : Triangle) : List Pt := [t.a, t.b, t.c]

/-- Embeds `Triangle.edges`. -/
def Triangle.edges (t : Triangle) : List Edge :=
  [⟨t.a, t.b⟩, ⟨t.b, t.c⟩, ⟨t.c, t.a⟩]

/-- Embeds `orientation`: the signed doubled area of the triangle a, b, c. -/
def orientation (a b c : Pt) : ℚ :=
  (b.1 - a.1) * (c.2 - a.2) - (b.2 - a.2) * (c.1 - a.1)

/-- Embeds `circumcenter`: `none` models the `ValueError` raised on a
degenerate (collinear) triangle. -/
def circumcenter (t : Triangle) : Option Pt :=
  let d := 2 * (t.a.1 * (t.b.2 - t.c.2) + t.b.1 * (t.c.2 - t.a.2) +
                t.c.1 * (t.a.2 - t.b.2))
  if |d| ≤ EPS then none
  else
    let a2 := t.a.1 * t.a.1 + t.a.2 * t.a.2
    let b2 := t.b.1 * t.b.1 + t.b.2 * t.b.2
    let c2 := t.c.1 * t.c.1 + t.c.2 * t.c.2
    some ((a2 * (t.b.2 - t.c.2) + b2 * (t.c.2 - t.a.2) + c2 * (t.a.2 - t.b.2)) / d,
          (a2 * (t.c.1 - t.b.1) + b2 * (t.a.1 - t.c.1) + c2 * (t.b.1 - t.a.1)) / d)

/-- Embeds `in_circumcircle`: orientation-aware determinant test with an EPS
threshold; a degenerate triangle contains no point. -/
def in_circumcircle (t : Triangle) (p : Pt) : Bool :=
  let ax := t.a.1 - p.1
  let ay := t.a.2 - p.2
  let bx := t.b.1 - p.1
  let by2 := t.b.2 - p.2
  let cx := t.c.1 - p.1
  let cy := t.c.2 - p.2
  let det := (ax * ax + ay * ay) * (bx * cy - by2 * cx)
           - (bx * bx + by2 * by2) * (ax * cy - ay * cx)
           + (cx * cx + cy * cy) * (ax * by2 - ay * bx)
  let ori := orientation t.a t.b t.c
  if |ori| ≤ EPS then false
  else if 0 < ori then decide (EPS < det) else decide (det < -EPS)

/-- Embeds `math.isclose` with an explicit `abs_tol` and Python's default
relative tolerance 1e-09, as called from `unique_points`. -/
def isclose (a b abs_tol : ℚ) : Bool :=
  decide (|a - b| ≤ max ((1/1000000000) * max |a| |b|) abs_tol)

/-- Embeds `unique_points`: stable deduplication with tolerance `eps` (the
source default, used by `bowyer_watson`, is 1e-12). -/
def unique_points (eps : ℚ) (points : List Pt) : List Pt :=
  points.foldl (fun out p =>
    if out.any (fun q => isclose p.1 q.1 eps && isclose p.2 q.2 eps) then out
    else out ++ [p]) []

/-- Embeds `_super_triangle` (app/domain/delaunay.py). -/
def super_triangle (points : List Pt) : Triangle :=
  let xs := points.map Prod.fst
  let ys := points.map Prod.snd
  let minx := Claude.listMin xs
  let maxx := Claude.listMax xs
  let miny := Claude.listMin ys
  let maxy := Claude.listMax ys
  let d0 := max (maxx - minx) (maxy - miny)
  let d := if d0 ≤ EPS then 1 else d0
  let midx := (minx + maxx) / 2
  let midy := (miny + maxy) / 2
  ⟨(midx - 20 * d, midy - 20 * d), (midx, midy + 20 * d), (midx + 20 * d, midy - 20 * d)⟩

/-- Increment the counter of an edge key in an insertion-ordered association
list, modelling a Python dict used as a counter. -/
def bump : List (Edge × Nat) → Edge → List (Edge × Nat)
  | [], e => [(e, 1)]
  | (k, v) :: rest, e => if k = e then (k, v + 1) :: rest else (k, v) :: bump rest e

/-- Add a value to the set stored under a key of an association list,
modelling `neighbors[a].add(b)` on a Python dict of sets. -/
def addNeighbor (m : List (Pt × List Pt)) (key val : Pt) : List (Pt × List Pt) :=
  m.map (fun kv => if kv.1 = key then (kv.1, if val ∈ kv.2 then kv.2 else kv.2 ++ [val]) else kv)

/-- Embeds the guarded mutual registration in `bowyer_watson`:
`if a in neighbors and b in neighbors: neighbors[a].add(b); neighbors[b].add(a)`. -/
def addPair (m : List (Pt × List Pt)) (u v : Pt) : List (Pt × List Pt) :=
  if (m.any (fun kv => kv.1 = u)) && (m.any (fun kv => kv.1 = v)) then
    addNeighbor (addNeighbor m u v) v u
  else m

/-- Embeds the `DelaunayResult` dataclass. -/
structure DelaunayResult where
  triangles : List Triangle
  neighbors : List (Pt × List Pt)
deriving DecidableEq

/-- Embeds `bowyer_watson` (Phase_2/CHATGPT app/domain/delaunay.py):
deduplicate, insert incrementally with an edge-count boundary detection and a
collinearity skip, drop super-triangle triangles, then build the adjacency. -/
def bowyer_watson (points_in : List Pt) : DelaunayResult :=
  let points := unique_points (1/1000000000000) points_in
  if points.length < 3 then ⟨[], points.map (fun p => (p, []))⟩
  else
    let st := super_triangle points
    let tris := points.foldl (fun triangles p =>
      let bad := triangles.filter (fun t => in_circumcircle t p)
      let edge_count := bad.foldl (fun m t =>
        t.edges.foldl (fun m2 e => bump m2 e.normalized) m) []
      let boundary_edges := (edge_count.filter (fun kc => kc.2 = 1)).map Prod.fst
      let remaining := triangles.filter (fun t => !(bad.contains t))
      remaining ++ boundary_edges.filterMap (fun e =>
        if |orientation e.a e.b p| ≤ EPS then none
        else some (Triangle.mk e.a e.b p))) [st]
    let st_vertices := [st.a, st.b, st.c]
    let final := tris.filter (fun t => !(t.vertices.any (fun v => st_vertices.contains v)))
    let nb0 := points.map (fun p => (p, ([] : List Pt)))
    let neighbors := final.foldl (fun nb t =>
      addPair (addPair (addPair nb t.a t.b) t.b t.c) t.c t.a) nb0
    ⟨final, neighbors⟩

/-- Embeds the `BBox` dataclass of app/domain/clipping.py. -/
structure BBox where
  xmin : ℚ
  ymin : ℚ
  xmax : ℚ
  ymax : ℚ
deriving DecidableEq

/-- Embeds `BBox.rect`: the rectangle corners, counterclockwise. -/
def BBox.rect (b : BBox) : List Pt :=
  [(b.xmin, b.ymin), (b.xmax, b.ymin), (b.xmax, b.ymax), (b.xmin, b.ymax)]

/-- Embeds `sutherland_hodgman_polygon_clip` (app/domain/clipping.py).  The
source keeps `s` as the previous vertex starting from the last; the same
(previous, current) pairs are formed by rotating the list right by one. -/
def sutherland_hodgman_polygon_clip (subject_polygon : List Pt)
    (inside : Pt → Bool) (intersect : Pt → Pt → Pt) : List Pt :=
  match subject_polygon with
  | [] => []
  | p :: ps =>
    let input := p :: ps
    let prevs := ps.getLastD p :: input.dropLast
    (prevs.zip input).foldr (fun se acc =>
      (if inside se.2 then
        (if inside se.1 then [se.2] else [intersect se.1 se.2, se.2])
       else if inside se.1 then [intersect se.1 se.2] else []) ++ acc) []

/-- Embeds the left-stage local `intersect` of `clip_polygon_to_bbox`
(app/domain/clipping.py): a near-vertical edge (|dx| <= EPS) is projected
directly onto the boundary at the first endpoint's height. -/
def intersect_left (xmin : ℚ) (s e : Pt) : Pt :=
  let dx := e.1 - s.1
  if |dx| ≤ EPS then (xmin, s.2)
  else (xmin, s.2 + ((xmin - s.1) / dx) * (e.2 - s.2))

/-- Embeds the right-stage local `intersect` of `clip_polygon_to_bbox`. -/
def intersect_right (xmax : ℚ) (s e : Pt) : Pt :=
  let dx := e.1 - s.1
  if |dx| ≤ EPS then (xmax, s.2)
  else (xmax, s.2 + ((xmax - s.1) / dx) * (e.2 - s.2))

/-- Embeds the bottom-stage local `intersect` of `clip_polygon_to_bbox`:
a near-horizontal edge (|dy| <= EPS) is projected directly onto the boundary
at the first endpoint's abscissa. -/
def intersect_bottom (ymin : ℚ) (s e : Pt) : Pt :=
  let dy := e.2 - s.2
  if |dy| ≤ EPS then (s.1, ymin)
  else (s.1 + ((ymin - s.2) / dy) * (e.1 - s.1), ymin)

/-- Embeds the top-stage local `intersect` of `clip_polygon_to_bbox`. -/
def intersect_top (ymax : ℚ) (s e : Pt) : Pt :=
  let dy := e.2 - s.2
  if |dy| ≤ EPS then (s.1, ymax)
  else (s.1 + ((ymax - s.2) / dy) * (e.1 - s.1), ymax)

/-- Embeds `clip_polygon_to_bbox` (app/domain/clipping.py): four half-plane
stages (left, right, bottom, top), each with an EPS slack on the inside test
and a near-zero fallback in the intersection; an empty intermediate polygon
short-circuits the remaining stages. -/
def clip_polygon_to_bbox (poly : List Pt) (bbox : BBox) : List Pt :=
  if poly = [] then []
  else
    let out1 := sutherland_hodgman_polygon_clip poly
      (fun p => decide (bbox.xmin - EPS ≤ p.1)) (intersect_left bbox.xmin)
    if out1 = [] then []
    else
      let out2 := sutherland_hodgman_polygon_clip out1
        (fun p => decide (p.1 ≤ bbox.xmax + EPS)) (intersect_right bbox.xmax)
      if out2 = [] then []
      else
        let out3 := sutherland_hodgman_polygon_clip out2
          (fun p => decide (bbox.ymin - EPS ≤ p.2)) (intersect_bottom bbox.ymin)
        if out3 = [] then []
        else
          sutherland_hodgman_polygon_clip out3
            (fun p => decide (p.2 ≤ bbox.ymax + EPS)) (intersect_top bbox.ymax)

/-- Embeds `_clip_polygon_by_halfplane` (app/domain/voronoi.py): keep the
points with a*x + b*y <= c, with an EPS slack and a parallel-edge fallback
returning the current vertex. -/
def clip_polygon_by_halfplane (poly : List Pt) (a b c : ℚ) : List Pt :=
  match poly with
  | [] => []
  | p :: ps =>
    let inside := fun (q : Pt) => decide (a * q.1 + b * q.2 ≤ c + EPS)
    let intersection := fun (s e : Pt) =>
      let dx := e.1 - s.1
      let dy := e.2 - s.2
      let denom := a * dx + b * dy
      if |denom| ≤ EPS then e
      else
        let t := (c - a * s.1 - b * s.2) / denom
        (s.1 + t * dx, s.2 + t * dy)
    let input := p :: ps
    let prevs := ps.getLastD p :: input.dropLast
    (prevs.zip input).foldr (fun se acc =>
      (if inside se.2 then
        (if inside se.1 then [se.2] else [intersection se.1 se.2, se.2])
       else if inside se.1 then [intersection se.1 se.2] else []) ++ acc) []

/-- Embeds `_cell_from_neighbors` (app/domain/voronoi.py): intersect the
bounding rectangle with one bisector half-plane per Delaunay neighbor, clip to
the rectangle, and sort angularly around the polygon centroid when at least 3
vertices remain. -/
def cell_from_neighbors (site : Pt) (neighbors : List Pt) (bbox : BBox) : List Pt :=
  let poly := neighbors.foldl (fun poly q =>
    if poly = [] then []
    else
      clip_polygon_by_halfplane poly (2 * (q.1 - site.1)) (2 * (q.2 - site.2))
        ((q.1 * q.1 + q.2 * q.2) - (site.1 * site.1 + site.2 * site.2))) bbox.rect
  let poly := clip_polygon_to_bbox poly bbox
  if 3 ≤ poly.length then
    let cx := (poly.map Prod.fst).sum / (poly.length : ℚ)
    let cy := (poly.map Prod.snd).sum / (poly.length : ℚ)
    sortByAngle (fun u v => angLt (u.1 - cx, u.2 - cy) (v.1 - cx, v.2 - cy)) poly
  else poly

/-- Embeds the `VoronoiDiagram` dataclass. -/
structure VoronoiDiagram where
  cells : List (Pt × List Pt)
  circumcenters : List Pt
  delaunay_triangles : List Triangle
deriving DecidableEq

/-- Embeds `build_voronoi_from_delaunay` (app/domain/voronoi.py): every input
site receives an entry in the cell mapping; degenerate circumcenters are
skipped in the debug list. -/
def build_voronoi_from_delaunay (points : List Pt) (delaunay_triangles : List Triangle)
    (neighbors : List (Pt × List Pt)) (bbox : BBox) : VoronoiDiagram :=
  let circumcenters := delaunay_triangles.filterMap circumcenter
  let cells := points.map (fun p =>
    (p, cell_from_neighbors p ((neighbors.lookup p).getD []) bbox))
  ⟨cells, circumcenters, delaunay_triangles⟩

end ChatGPT

namespace PhaseOne

/-- Embeds `Triangle.centre_circonscrit` (Phase_1 src/domain/triangle.py):
on a near-degenerate triangle (|denominator| < 1e-12) it returns the FIRST
VERTEX of the triangle, not an infinite sentinel. -/
def centre_circonscrit (a b c : Pt) : Pt :=
  let den := 2 * (a.1 * (b.2 - c.2) + b.1 * (c.2 - a.2) + c.1 * (a.2 - b.2))
  if |den| < 1/1000000000000 then (a.1, a.2)
  else
    let a2 := a.1 * a.1 + a.2 * a.2
    let b2 := b.1 * b.1 + b.2 * b.2
    let c2 := c.1 * c.1 + c.2 * c.2
    ((a2 * (b.2 - c.2) + b2 * (c.2 - a.2) + c2 * (a.2 - b.2)) / den,
     (a2 * (c.1 - b.1) + b2 * (a.1 - c.1) + c2 * (b.1 - a.1)) / den)

/-- Embeds `Triangle.point_dans_cercle` (Phase_1 src/domain/triangle.py):
non-strict comparison of squared distances, with no epsilon margin, the radius
being measured from the first vertex. -/
def point_dans_cercle (a b c candidat : Pt) : Bool :=
  let centre := centre_circonscrit a b c
  let rayon_carre := (centre.1 - a.1) * (centre.1 - a.1) + (centre.2 - a.2) * (centre.2 - a.2)
  let distance_carre := (centre.1 - candidat.1) * (centre.1 - candidat.1) +
                        (centre.2 - candidat.2) * (centre.2 - candidat.2)
  decide (distance_carre ≤ rayon_carre)

/-- Embeds the `Triangle` class of Phase_1 src/domain/triangle.py (three
points; equality in the source compares vertex SETS). -/
structure Triangle where
  a : Pt
  b : Pt
  c : Pt
deriving DecidableEq

/-- Embeds the `Segment` constructor: endpoints stored in lexicographic
order, giving an order-independent identity. -/
def mkSegment (p1 p2 : Pt) : Pt × Pt :=
  if p1.1 < p2.1 ∨ (p1.1 = p2.1 ∧ p1.2 < p2.2) then (p1, p2) else (p2, p1)

/-- Embeds `Triangle.segments`. -/
def segments (t : Triangle) : List (Pt × Pt) :=
  [mkSegment t.a t.b, mkSegment t.b t.c, mkSegment t.c t.a]

/-- Embeds `Triangle.__eq__`: equality of vertex sets (exact point equality). -/
def vertexSet_eq (t u : Triangle) : Bool :=
  [t.a, t.b, t.c].all (fun p => [u.a, u.b, u.c].contains p) &&
  [u.a, u.b, u.c].all (fun p => [t.a, t.b, t.c].contains p)

/-- Embeds `Triangle.partage_sommet`: some exact vertex in common. -/
def partage_sommet (t u : Triangle) : Bool :=
  [t.a, t.b, t.c].any (fun p => [u.a, u.b, u.c].contains p)

/-- Embeds `creer_super_triangle` (Phase_1 src/delaunay_bw.py). -/
def creer_super_triangle (points : List Pt) : Triangle :=
  let xs := points.map Prod.fst
  let ys := points.map Prod.snd
  let mnx := Claude.listMin xs
  let mxx := Claude.listMax xs
  let mny := Claude.listMin ys
  let mxy := Claude.listMax ys
  let marge := max (mxx - mnx) (mxy - mny) * 10
  ⟨(mnx - marge, mny - marge), (mnx - marge, mxy + marge * 2), (mxx + marge * 2, mny - marge)⟩

/-- Embeds `est_arete_partagee`: the segment occurs more than once among the
triangles' segments. -/
def est_arete_partagee (arete : Pt × Pt) (triangles : List Triangle) : Bool :=
  decide (1 < triangles.foldl (fun cnt t =>
    cnt + (segments t).countP (fun s => decide (s = arete))) 0)

/-- Embeds `triangulation_delaunay` (Phase_1 src/delaunay_bw.py): incremental
insertion with the non-strict containment test `point_dans_cercle`; removal of
an invalid triangle removes the first triangle with the same vertex set, as
`list.remove` does under the source's `__eq__`. -/
def triangulation_delaunay (points : List Pt) : List Triangle :=
  let st := creer_super_triangle points
  let tris := points.foldl (fun triangles point =>
    let invalides := triangles.filter (fun t => point_dans_cercle t.a t.b t.c point)
    let frontiere := invalides.foldr (fun t acc =>
      (segments t).filter (fun a => !(est_arete_partagee a invalides)) ++ acc) []
    let removed := invalides.foldl (fun l t => l.eraseP (fun u => vertexSet_eq u t)) triangles
    removed ++ frontiere.map (fun a => Triangle.mk a.1 a.2 point)) [st]
  tris.filter (fun t => !(partage_sommet t st))

/-- Exception behavior of `triangulation_delaunay` (Phase_1 src/delaunay_bw.py):
its first step `creer_super_triangle` applies Python `min`/`max` to the
coordinate lists, which raise `ValueError` exactly when the input is empty;
no other statement of the function raises (the circumcenter division is
guarded by the |den| < 1e-12 fallback and `list.remove` always finds its
set-equal argument).  `none` models that exception; on any nonempty input
the run completes and agrees with `triangulation_delaunay`. -/
def triangulation_delaunay_exc (points : List Pt) : Option (List Triangle) :=
  if points = [] then none else some (triangulation_delaunay points)

end PhaseOne

namespace Copilot

/-- Embeds the inner `clip_edge` of `clip_polygon_to_bbox`
(Phase_2/COPILOT geometry/utils.py), walking (previous, current) vertex pairs
with the previous vertex starting from the last. -/
def clip_edge (points : List Pt) (inside : Pt → Bool)
    (intersect : Pt → Pt → Pt) : List Pt :=
  match points with
  | [] => []
  | p :: ps =>
    let input := p :: ps
    let prevs := ps.getLastD p :: input.dropLast
    (prevs.zip input).foldr (fun pc acc =>
      (if inside pc.2 then
        (if inside pc.1 then [pc.2] else [intersect pc.1 pc.2, pc.2])
       else if inside pc.1 then [intersect pc.1 pc.2] else []) ++ acc) []

/-- Embeds the left-stage intersection lambda of the COPILOT
`clip_polygon_to_bbox`: a plain division by the edge x-component, with no
near-zero guard (rational division by an exact zero is 0 here; the source can
only divide by zero when an endpoint lies exactly on the boundary). -/
def intersect_left (min_x : ℚ) (p1 p2 : Pt) : Pt :=
  (min_x, p1.2 + (p2.2 - p1.2) * (min_x - p1.1) / (p2.1 - p1.1))

/-- Embeds `clip_polygon_to_bbox` (Phase_2/COPILOT geometry/utils.py): four
Sutherland-Hodgman stages with exact inside tests and unguarded divisions in
the intersections. -/
def clip_polygon_to_bbox (polygon : List Pt) (min_x max_x min_y max_y : ℚ) : List Pt :=
  let poly1 := clip_edge polygon (fun p => decide (min_x ≤ p.1)) (intersect_left min_x)
  let poly2 := clip_edge poly1 (fun p => decide (p.1 ≤ max_x))
    (fun p1 p2 => (max_x, p1.2 + (p2.2 - p1.2) * (max_x - p1.1) / (p2.1 - p1.1)))
  let poly3 := clip_edge poly2 (fun p => decide (min_y ≤ p.2))
    (fun p1 p2 => (p1.1 + (p2.1 - p1.1) * (min_y - p1.2) / (p2.2 - p1.2), min_y))
  clip_edge poly3 (fun p => decide (p.2 ≤ max_y))
    (fun p1 p2 => (p1.1 + (p2.1 - p1.1) * (max_y - p1.2) / (p2.2 - p1.2), max_y))

/-- Embeds the `Triangle` dataclass (Phase_2/COPILOT geometry/delaunay.py):
integer vertex indices into the site list, plus the cached circumcircle
data. -/
structure Triangle where
  vertices : Nat × Nat × Nat
  circumcenter : Pt
  radius_sq : ℚ
deriving DecidableEq

/-- Modelled from the spec: `compute_bounding_box` is imported from
`geometry/utils.py` by `build_voronoi_cells` (and by `geometry/delaunay.py`
and `app.py`) but is absent from that module; per the spec's BoundingBox
description (auto-derived from the point extent) and the callers' unpacking
`min_x, min_y, max_x, max_y`, it returns the coordinate extent of the input
points in that order. -/
def compute_bounding_box (points : List Pt) : ℚ × ℚ × ℚ × ℚ :=
  (Claude.listMin (points.map Prod.fst), Claude.listMin (points.map Prod.snd),
   Claude.listMax (points.map Prod.fst), Claude.listMax (points.map Prod.snd))

/-- Add `v` to the neighbor set of `k` in an insertion-ordered association
list, modelling the `defaultdict(set)` of `_build_point_neighbors` (set
iteration is modelled as insertion order, which for the small consecutive
integer keys and elements produced here coincides with CPython's behavior). -/
def addNb : List (Nat × List Nat) → Nat → Nat → List (Nat × List Nat)
  | [], k, v => [(k, [v])]
  | (k0, s) :: rest, k, v =>
    if k0 = k then (k0, if v ∈ s then s else s ++ [v]) :: rest
    else (k0, s) :: addNb rest k v

/-- Embeds `_build_point_neighbors` (Phase_2/COPILOT geometry/voronoi.py):
each triangle links each of its vertex indices to the other two. -/
def build_point_neighbors (triangles : List Triangle) : List (Nat × List Nat) :=
  triangles.foldl (fun nb tri =>
    let a := tri.vertices.1
    let b := tri.vertices.2.1
    let c := tri.vertices.2.2
    addNb (addNb (addNb (addNb (addNb (addNb nb a b) a c) b a) b c) c a) c b) []

/-- Embeds `_clip_polygon_with_halfplane` (Phase_2/COPILOT
geometry/voronoi.py): keep the points closer to `p` than to `q`, with a
1e-12 slack on the inside test; the near-parallel intersection fallback
(threshold 1e-18) returns the previous vertex. -/
def clip_polygon_with_halfplane (polygon : List Pt) (p q : Pt) : List Pt :=
  match polygon with
  | [] => []
  | x :: xs =>
    let vx := q.1 - p.1
    let vy := q.2 - p.2
    let c := (q.1 * q.1 + q.2 * q.2 - p.1 * p.1 - p.2 * p.2) / 2
    let inside := fun (pt : Pt) => decide (pt.1 * vx + pt.2 * vy ≤ c + 1/1000000000000)
    let intersect := fun (p1 p2 : Pt) =>
      let dx := p2.1 - p1.1
      let dy := p2.2 - p1.2
      let denom := dx * vx + dy * vy
      if |denom| < 1/1000000000000000000 then p1
      else
        let t := (c - (p1.1 * vx + p1.2 * vy)) / denom
        (p1.1 + t * dx, p1.2 + t * dy)
    let input := x :: xs
    let prevs := xs.getLastD x :: input.dropLast
    (prevs.zip input).foldr (fun pc acc =>
      (if inside pc.2 then
        (if inside pc.1 then [pc.2] else [intersect pc.1 pc.2, pc.2])
       else if inside pc.1 then [intersect pc.1 pc.2] else []) ++ acc) []

/-- Embeds the per-site neighbor loop of `build_voronoi_cells`: clip by one
bisector per neighbor index, emptying the polygon and breaking as soon as
fewer than 3 vertices remain.  `points.getD j (0, 0)` models `points[j]`;
the Delaunay caller only produces in-range indices, for which the default is
never consulted. -/
def clip_neighbors_loop (points : List Pt) (site : Pt) : List Nat → List Pt → List Pt
  | [], poly => poly
  | j :: js, poly =>
    let poly2 := clip_polygon_with_halfplane poly site (points.getD j (0, 0))
    if poly2.length < 3 then []
    else clip_neighbors_loop points site js poly2

/-- Embeds `build_voronoi_cells` (Phase_2/COPILOT geometry/voronoi.py):
expand the bounding box by half the larger extent, clip the rectangle per
site by the neighbor bisectors, and store a cell - in site order, keyed by
the site index - only when at least 3 vertices remain; sites without
neighbors are skipped. -/
def build_voronoi_cells (points : List Pt) (triangles : List Triangle) :
    List (Nat × List Pt) :=
  if triangles = [] ∨ points = [] then []
  else
    let bb := compute_bounding_box points
    let min_x := bb.1
    let min_y := bb.2.1
    let max_x := bb.2.2.1
    let max_y := bb.2.2.2
    let dx := max_x - min_x
    let dy := max_y - min_y
    let delta0 := max dx dy
    let delta := if delta0 = 0 then 1 else delta0
    let margin := delta * (1/2)
    let bbox_polygon : List Pt :=
      [(min_x - margin, min_y - margin), (max_x + margin, min_y - margin),
       (max_x + margin, max_y + margin), (min_x - margin, max_y + margin)]
    let neighbors := build_point_neighbors triangles
    points.enum.foldl (fun cells ip =>
      let nbs := ((neighbors.lookup ip.1).getD [])
      if nbs = [] then cells
      else
        let poly := clip_neighbors_loop points ip.2 nbs bbox_polygon
        if 3 ≤ poly.length then cells ++ [(ip.1, poly)] else cells) []

end Copilot

namespace Claude

/-- Embeds `_build_adjacency` (algorithms/voronoi.py) for one site: the
triangles having a vertex EPS-equal to the site, in triangulation order (the
source's inner `break` registers each triangle at most once per site). -/
def adjacent_triangles (triangles : List Triangle) (p : Pt) : List Triangle :=
  triangles.filter (fun tri =>
    [tri.a, tri.b, tri.c].any (fun v => pts_equal v p))

/-- Embeds `_find_hull_edges` (algorithms/voronoi.py): the (edge, owner)
pairs whose edge is EPS-equal to no other edge occurrence. -/
def find_hull_edges (triangles : List Triangle) : List ((Pt × Pt) × Triangle) :=
  let all_edges := triangles.flatMap (fun tri => tri.edges.map (fun e => (e, tri)))
  (all_edges.enum.filter (fun ie =>
    !(all_edges.enum.any (fun je =>
      decide (je.1 ≠ ie.1) && edge_equal ie.2.1 je.2.1)))).map Prod.snd

/-- Embeds `_centroid` (algorithms/voronoi.py). -/
def centroid (points : List Pt) : Pt :=
  ((points.map Prod.fst).sum / (points.length : ℚ),
   (points.map Prod.snd).sum / (points.length : ℚ))

/-- Embeds `_outward_normal` (algorithms/voronoi.py).  The irrational
`math.sqrt` is taken as the parameter `sqrtFn`, so every statement below holds
for each realization of the square root. -/
def outward_normal (sqrtFn : ℚ → ℚ) (edge : Pt × Pt) (ctr : Pt) : Pt :=
  let ex := edge.2.1 - edge.1.1
  let ey := edge.2.2 - edge.1.2
  let n1 : Pt := (-ey, ex)
  let n2 : Pt := (ey, -ex)
  let mid_x := (edge.1.1 + edge.2.1) / 2
  let mid_y := (edge.1.2 + edge.2.2) / 2
  let d1 := (mid_x + n1.1 - ctr.1) ^ 2 + (mid_y + n1.2 - ctr.2) ^ 2
  let d2 := (mid_x + n2.1 - ctr.1) ^ 2 + (mid_y + n2.2 - ctr.2) ^ 2
  let n := if d2 < d1 then n1 else n2
  let length := sqrtFn (n.1 * n.1 + n.2 * n.2)
  if length < EPS then (0, 0) else (n.1 / length, n.2 / length)

/-- Embeds `_compute_far_vertices` (algorithms/voronoi.py): one far point per
hull edge touching the site, skipping degenerate owner triangles. -/
def compute_far_vertices (sqrtFn : ℚ → ℚ) (site : Pt)
    (hull_edges : List ((Pt × Pt) × Triangle)) (ctr : Pt) (far : ℚ) : List Pt :=
  hull_edges.filterMap (fun et =>
    if !(pts_equal et.1.1 site || pts_equal et.1.2 site) then none
    else
      match et.2.circumcircle with
      | none => none
      | some (cc, _) =>
        let n := outward_normal sqrtFn et.1 ctr
        some (cc.1 + n.1 * far, cc.2 + n.2 * far))

/-- The finite Voronoi vertices of a site: circumcenters of its adjacent
triangles, skipping the degenerate (infinite-sentinel) ones, as in the
`finite_verts` comprehension of `_build_cell`. -/
def finite_verts (adj_triangles : List Triangle) : List Pt :=
  adj_triangles.filterMap (fun tri => (tri.circumcircle).map Prod.fst)

/-- Embeds `_build_cell` (algorithms/voronoi.py): `none` models the Python
`None` for a cell with no finite vertex or fewer than 3 vertices after
clipping. -/
def build_cell (sqrtFn : ℚ → ℚ) (site : Pt) (adj_triangles : List Triangle)
    (hull_edges : List ((Pt × Pt) × Triangle)) (ctr : Pt) (far : ℚ)
    (xmin xmax ymin ymax : ℚ) : Option (List Pt) :=
  let fv := finite_verts adj_triangles
  if fv = [] then none
  else
    let far_verts := compute_far_vertices sqrtFn site hull_edges ctr far
    let all_verts := sortByAngle
      (fun u v => angLt (u.1 - site.1, u.2 - site.2) (v.1 - site.1, v.2 - site.2))
      (fv ++ far_verts)
    let clipped := sutherland_hodgman all_verts xmin xmax ymin ymax
    if 3 ≤ clipped.length then some clipped else none

/-- The cell `compute_voronoi` computes for one site: `_build_cell` applied to
the site's adjacent triangles, the hull edges, the cloud centroid and the
`far` distance (ten times the bounding-box diagonal, via `sqrtFn`).  The
source hoists these loop-invariant quantities out of the site loop; recomputing
them per site is the same function of the arguments. -/
def site_cell (sqrtFn : ℚ → ℚ) (points : List Pt) (triangles : List Triangle)
    (bbox : ℚ × ℚ × ℚ × ℚ) (site : Pt) : Option (List Pt) :=
  let far := sqrtFn ((bbox.2.1 - bbox.1) ^ 2 + (bbox.2.2.2 - bbox.2.2.1) ^ 2) * 10
  build_cell sqrtFn site (adjacent_triangles triangles site) (find_hull_edges triangles)
    (centroid points) far bbox.1 bbox.2.1 bbox.2.2.1 bbox.2.2.2

/-- Embeds `compute_voronoi` (algorithms/voronoi.py): the cell dictionary,
keyed by site index, containing exactly the sites whose `_build_cell` is not
`None`. -/
def compute_voronoi (sqrtFn : ℚ → ℚ) (points : List Pt) (triangles : List Triangle)
    (bbox : ℚ × ℚ × ℚ × ℚ) : List (Nat × List Pt) :=
  points.enum.filterMap (fun ip =>
    (site_cell sqrtFn points triangles bbox ip.2).map (fun cell => (ip.1, cell)))

end Claude

/-- Squared euclidean distance between two points (the spec's
squared-distance). -/
def distSq (p q : Pt) : ℚ := (p.1 - q.1) ^ 2 + (p.2 - q.2) ^ 2

/-- The empty-circumcircle property of the CLAUDE builder on an input, checked
with the CLAUDE in-circumcircle test: no output triangle strictly contains a
nonvertex input point. -/
def delaunayPropertyClaude (pts : List Pt) : Bool :=
  (Claude.bowyer_watson pts).all (fun t =>
    pts.all (fun q =>
      (q = t.a || q = t.b || q = t.c) || !(t.in_circumcircle q)))

/-- The empty-circumcircle property of the CHATGPT builder on an input, checked
with the CHATGPT in-circumcircle test. -/
def delaunayPropertyGPT (pts : List Pt) : Bool :=
  (ChatGPT.bowyer_watson pts).triangles.all (fun t =>
    pts.all (fun q =>
      (q = t.a || q = t.b || q = t.c) || !(ChatGPT.in_circumcircle t q)))

/-! ### Theorems -/

/-- Reduction of the CLAUDE in-circumcircle test on a nondegenerate triangle. -/
theorem in_circumcircle_some (t : Claude.Triangle) (cc : Pt) (r2 : ℚ)
    (h : t.circumcircle = some (cc, r2)) (p : Pt) :
    t.in_circumcircle p = decide (distSq p cc < r2 - Claude.EPS) := by
  unfold Claude.Triangle.in_circumcircle
  rw [h]
  show decide ((p.1 - cc.1) * (p.1 - cc.1) + (p.2 - cc.2) * (p.2 - cc.2) < r2 - Claude.EPS) = _
  have hd : (p.1 - cc.1) * (p.1 - cc.1) + (p.2 - cc.2) * (p.2 - cc.2) = distSq p cc := by
    rw [distSq]
    ring
  rw [hd]

/-- Reduction of the CLAUDE in-circumcircle test on a degenerate triangle. -/
theorem in_circumcircle_none (t : Claude.Triangle)
    (h : t.circumcircle = none) (p : Pt) : t.in_circumcircle p = false := by
  unfold Claude.Triangle.in_circumcircle
  rw [h]

unseal Rat.mul Rat.add Rat.sub Rat.inv in
/-- C3 counterexample: two of the cited variants break the claimed epsilon
iff.  Phase_1: for the right triangle (0,0),(4,0),(0,3) the point (4,3) lies
exactly on the circumcircle, yet `point_dans_cercle` (non-strict, no epsilon)
reports it as inside.  CHATGPT: for the triangle (0,0),(10,0),(0,10) with
circumcenter (5,5), the point (10 - 1e-12, 10) satisfies
d2 >= r2 - EPS for the variant's own EPS = 1e-10 (and also for 1e-9), yet
the orientation-determinant test reports it as strictly inside - the
determinant threshold scales with the triangle's size, unlike the claimed
fixed-epsilon distance comparison. -/
theorem C3_counterexample :
    PhaseOne.centre_circonscrit (0,0) (4,0) (0,3) = (2, 3/2) ∧
    distSq (4,3) (2, 3/2) = distSq (0,0) (2, 3/2) ∧
    PhaseOne.point_dans_cercle (0,0) (4,0) (0,3) (4,3) = true ∧
    ChatGPT.circumcenter ⟨(0,0), (10,0), (0,10)⟩ = some (5,5) ∧
    distSq ((0:ℚ), (0:ℚ)) (5,5) = 50 ∧
    ¬(distSq (10 - 1/1000000000000, 10) (5,5) < 50 - ChatGPT.EPS) ∧
    ¬(distSq (10 - 1/1000000000000, 10) (5,5) < 50 - Claude.EPS) ∧
    ChatGPT.in_circumcircle ⟨(0,0), (10,0), (0,10)⟩ (10 - 1/1000000000000, 10) =
      true := by decide

set_option maxHeartbeats 1000000 in
/-- In the CHATGPT variant, a query point exactly on the circumcircle of a
triangle whose circumcenter computation succeeds is reported as not inside:
the in-circumcircle determinant equals the triangle orientation times the
difference of squared distances to the circumcenter, which vanishes on the
boundary, and both sign branches demand a magnitude above EPS. -/
theorem gpt_boundary_not_in (t : ChatGPT.Triangle) (u q : Pt)
    (hg : ChatGPT.circumcenter t = some u)
    (hq : distSq q u = distSq t.a u) :
    ChatGPT.in_circumcircle t q = false := by
  unfold ChatGPT.circumcenter at hg
  simp only [] at hg
  split at hg
  · exact absurd hg (by simp)
  · rename_i hd
    have hD : 2 * (t.a.1 * (t.b.2 - t.c.2) + t.b.1 * (t.c.2 - t.a.2) +
        t.c.1 * (t.a.2 - t.b.2)) ≠ 0 := by
      intro h0
      apply hd
      rw [h0]
      norm_num [ChatGPT.EPS]
    have h1 := Option.some.inj hg
    have h2 := congrArg Prod.fst h1
    have h3 := congrArg Prod.snd h1
    simp only [] at h2 h3
    have hdet :
        ((t.a.1 - q.1) * (t.a.1 - q.1) + (t.a.2 - q.2) * (t.a.2 - q.2)) *
          ((t.b.1 - q.1) * (t.c.2 - q.2) - (t.b.2 - q.2) * (t.c.1 - q.1)) -
        ((t.b.1 - q.1) * (t.b.1 - q.1) + (t.b.2 - q.2) * (t.b.2 - q.2)) *
          ((t.a.1 - q.1) * (t.c.2 - q.2) - (t.a.2 - q.2) * (t.c.1 - q.1)) +
        ((t.c.1 - q.1) * (t.c.1 - q.1) + (t.c.2 - q.2) * (t.c.2 - q.2)) *
          ((t.a.1 - q.1) * (t.b.2 - q.2) - (t.a.2 - q.2) * (t.b.1 - q.1)) =
        ChatGPT.orientation t.a t.b t.c * (distSq t.a u - distSq q u) := by
      simp only [distSq, ChatGPT.orientation]
      rw [← h2, ← h3]
      field_simp
      ring
    have hz : ChatGPT.orientation t.a t.b t.c * (distSq t.a u - distSq q u) = 0 := by
      rw [hq]
      ring
    unfold ChatGPT.in_circumcircle
    simp only []
    rw [hdet, hz]
    split
    · rfl
    · split
      · exact decide_eq_false (by norm_num [ChatGPT.EPS])
      · exact decide_eq_false (by norm_num [ChatGPT.EPS])

/-- C3 amended: for the CLAUDE variant the claim holds exactly: whenever the
circumcircle computation succeeds, the computed center is equidistant from the
three vertices, the squared radius is that common squared distance, the
in-circumcircle test is true iff the squared distance of the query point to
the center is strictly below the squared radius minus EPS, and a point exactly
on the boundary is reported as not inside.  The CHATGPT variant's
orientation-determinant test still excludes exact-boundary points (its
determinant vanishes there), but does not satisfy the fixed-epsilon iff (see
the counterexample); the Phase_1 variant compares non-strictly with no
epsilon, reporting boundary points as inside. -/
theorem C3_amended (t : Claude.Triangle) (cc : Pt) (r2 : ℚ) (p : Pt)
    (h : t.circumcircle = some (cc, r2))
    (gt : ChatGPT.Triangle) (u q : Pt)
    (hg : ChatGPT.circumcenter gt = some u)
    (hq : distSq q u = distSq gt.a u) :
    (distSq t.a cc = r2 ∧ distSq t.b cc = r2 ∧ distSq t.c cc = r2) ∧
    (t.in_circumcircle p = true ↔ distSq p cc < r2 - Claude.EPS) ∧
    (distSq p cc = r2 → t.in_circumcircle p = false) ∧
    ChatGPT.in_circumcircle gt q = false := by
  have heps : (0 : ℚ) < Claude.EPS := by norm_num [Claude.EPS]
  have hiff : t.in_circumcircle p = true ↔ distSq p cc < r2 - Claude.EPS := by
    rw [in_circumcircle_some t cc r2 h p]
    exact decide_eq_true_iff
  refine ⟨?_, hiff, ?_, gpt_boundary_not_in gt u q hg hq⟩
  · unfold Claude.Triangle.circumcircle at h
    simp only [] at h
    split at h
    · exact absurd h (by simp)
    · rename_i hd
      have hD0 : 2 * (t.a.1 * (t.b.2 - t.c.2) + t.b.1 * (t.c.2 - t.a.2) +
          t.c.1 * (t.a.2 - t.b.2)) ≠ 0 := by
        intro h0
        apply hd
        show |t.circumD| < Claude.EPS
        rw [Claude.Triangle.circumD, h0]
        norm_num [Claude.EPS]
      have h1 := Option.some.inj h
      have h2 := congrArg Prod.fst h1
      have h3 := congrArg Prod.snd h1
      simp only [] at h2 h3
      rw [← h2, ← h3]
      refine ⟨?_, ?_, ?_⟩ <;>
        simp only [distSq, Claude.Triangle.circumD] <;>
        field_simp <;>
        ring
  · intro hb
    cases hic : t.in_circumcircle p with
    | false => rfl
    | true =>
      have := hiff.mp hic
      rw [hb] at this
      linarith

unseal Rat.mul Rat.add Rat.sub Rat.inv in
/-- C3 witness: the amended theorem applied to the right triangle
(0,0),(4,0),(0,3) - circumcenter (2, 3/2), squared radius 25/4 - and its
boundary point (4,3), for both the CLAUDE triangle and the CHATGPT one. -/
theorem C3_witness :
    (Claude.Triangle.mk (0,0) (4,0) (0,3)).circumcircle = some ((2, 3/2), 25/4) ∧
    ChatGPT.circumcenter ⟨(0,0), (4,0), (0,3)⟩ = some (2, 3/2) ∧
    distSq (4,3) (2, 3/2) = distSq ((0:ℚ), (0:ℚ)) (2, 3/2) ∧
    ((distSq (0,0) (2, 3/2) = 25/4 ∧ distSq (4,0) (2, 3/2) = 25/4 ∧
      distSq (0,3) (2, 3/2) = 25/4) ∧
     ((Claude.Triangle.mk (0,0) (4,0) (0,3)).in_circumcircle (4,3) = true ↔
       distSq (4,3) (2, 3/2) < 25/4 - Claude.EPS) ∧
     (distSq (4,3) (2, 3/2) = 25/4 →
       (Claude.Triangle.mk (0,0) (4,0) (0,3)).in_circumcircle (4,3) = false) ∧
     ChatGPT.in_circumcircle ⟨(0,0), (4,0), (0,3)⟩ (4,3) = false) :=
  ⟨by decide, by decide, by decide,
    C3_amended (Claude.Triangle.mk (0,0) (4,0) (0,3)) (2, 3/2) (25/4) (4,3) (by decide)
      ⟨(0,0), (4,0), (0,3)⟩ (2, 3/2) (4,3) (by decide) (by decide)⟩

unseal Rat.mul Rat.add Rat.sub Rat.inv in
/-- C4 counterexample: for the collinear triangle (0,0),(1,0),(2,0) the
Phase_1 circumcenter fallback returns the FIRST VERTEX (0,0) - a finite point,
not an infinite sentinel - and the Phase_1 containment test then reports the
query point (0,0) as lying in the circle, contradicting the claim that
degenerate triangles never register as containing any query point. -/
theorem C4_counterexample :
    PhaseOne.centre_circonscrit (0,0) (1,0) (2,0) = (0,0) ∧
    PhaseOne.point_dans_cercle (0,0) (1,0) (2,0) (0,0) = true := by decide

/-- C4 amended: in the CLAUDE variant the claim holds: a triangle whose
circumcenter determinant is below EPS in magnitude carries the sentinel
(`none`, modelling the infinite center/radius), its in-circumcircle test
rejects every query point, and it contributes neither a finite circumcenter
vertex nor a far vertex to any Voronoi cell. -/
theorem C4_amended (t : Claude.Triangle) (h : |t.circumD| < Claude.EPS) :
    t.circumcircle = none ∧
    (∀ p, t.in_circumcircle p = false) ∧
    (∀ pre post, Claude.finite_verts (pre ++ t :: post) = Claude.finite_verts (pre ++ post)) ∧
    (∀ sqrtFn site ctr far e pre post,
      Claude.compute_far_vertices sqrtFn site (pre ++ (e, t) :: post) ctr far =
      Claude.compute_far_vertices sqrtFn site (pre ++ post) ctr far) := by
  have hcc : t.circumcircle = none := by
    unfold Claude.Triangle.circumcircle
    simp only []
    rw [if_pos h]
  refine ⟨hcc, ?_, ?_, ?_⟩
  · intro p
    exact in_circumcircle_none t hcc p
  · intro pre post
    unfold Claude.finite_verts
    rw [List.filterMap_append, List.filterMap_append, List.filterMap_cons, hcc]
    rfl
  · intro sqrtFn site ctr far e pre post
    unfold Claude.compute_far_vertices
    rw [List.filterMap_append, List.filterMap_append, List.filterMap_cons]
    have hentry : (if !(Claude.pts_equal e.1 site || Claude.pts_equal e.2 site) then none
        else match t.circumcircle with
          | none => none
          | some (cc, _) =>
            let n := Claude.outward_normal sqrtFn e ctr
            some (cc.1 + n.1 * far, cc.2 + n.2 * far)) = (none : Option Pt) := by
      rw [hcc]
      split <;> rfl
    rw [hentry]

unseal Rat.mul Rat.add Rat.sub Rat.inv in
/-- C4 witness: the amended theorem applied to the collinear triangle
(0,0),(1,0),(2,0), a query point, and concrete Voronoi-vertex contexts. -/
theorem C4_witness :
    |(Claude.Triangle.mk (0,0) (1,0) (2,0)).circumD| < Claude.EPS ∧
    (Claude.Triangle.mk (0,0) (1,0) (2,0)).circumcircle = none ∧
    (Claude.Triangle.mk (0,0) (1,0) (2,0)).in_circumcircle (7,7) = false ∧
    Claude.finite_verts [Claude.Triangle.mk (0,0) (1,0) (2,0)] = Claude.finite_verts [] ∧
    Claude.compute_far_vertices (fun _ => 0) (0,0)
      [(((0,0), (1,0)), Claude.Triangle.mk (0,0) (1,0) (2,0))] (1,0) 5 =
      Claude.compute_far_vertices (fun _ => 0) (0,0) [] (1,0) 5 := by
  have h := C4_amended (Claude.Triangle.mk (0,0) (1,0) (2,0)) (by decide)
  exact ⟨by decide, h.1, h.2.1 (7,7), h.2.2.1 [] [],
    h.2.2.2 (fun _ => 0) (0,0) (1,0) 5 ((0,0), (1,0)) [] []⟩

unseal Rat.mul Rat.add Rat.sub Rat.inv in
/-- C5 counterexample: the input [(0,0), (0, 8e-10), (10,0)] has only two
distinct points at tolerance EPS (the first two are EPS-equal), yet both the
CLAUDE builder and the Phase_1 builder - neither of which deduplicates -
return a nonempty triangulation consisting of one sliver triangle,
contradicting the claim that such inputs yield an empty triangle list;
moreover the Phase_1 builder raises (modelled by `none`) on the empty input
instead of returning empty structures. -/
theorem C5_counterexample :
    Claude.pts_equal (0,0) (0, 1/1250000000) = true ∧
    Claude.bowyer_watson [(0,0), (0, 1/1250000000), (10,0)] =
      [⟨(0,0), (0, 1/1250000000), (10,0)⟩] ∧
    PhaseOne.triangulation_delaunay [(0,0), (0, 1/1250000000), (10,0)] =
      [⟨(0,0), (0, 1/1250000000), (10,0)⟩] ∧
    PhaseOne.triangulation_delaunay_exc [] = none := by decide

unseal Rat.mul Rat.add Rat.sub Rat.inv in
/-- C5 amended: the guards that do hold: the CLAUDE builder returns the empty
list whenever the RAW input has fewer than 3 points, and the CHATGPT builder
returns empty structures whenever fewer than 3 points remain after ITS
deduplication, which uses tolerance 1e-12, not the spec epsilon.  The Phase_1
builder has no length guard at all: it raises on the empty input (`none` in
the exception-aware model) and happens to return the empty list on concrete
1-point and 2-point inputs only because every triangle it builds shares a
super-triangle vertex; near-duplicate 3-point inputs still produce nonempty
CLAUDE and Phase_1 triangulations (see the counterexample). -/
theorem C5_amended (pts : List Pt) (qts : List Pt) (h3 : pts.length < 3)
    (hq : (ChatGPT.unique_points (1/1000000000000) qts).length < 3) :
    Claude.bowyer_watson pts = [] ∧
    (ChatGPT.bowyer_watson qts).triangles = [] ∧
    (∀ kv ∈ (ChatGPT.bowyer_watson qts).neighbors, kv.2 = ([] : List Pt)) ∧
    PhaseOne.triangulation_delaunay_exc [] = none ∧
    PhaseOne.triangulation_delaunay [(5,7)] = [] ∧
    PhaseOne.triangulation_delaunay [(0,0), (1,1)] = [] := by
  refine ⟨?_, ?_, ?_, by decide, by decide, by decide⟩
  · rw [Claude.bowyer_watson, if_pos h3]
  · rw [ChatGPT.bowyer_watson]
    simp only [hq, if_pos]
  · rw [ChatGPT.bowyer_watson]
    simp only [hq, if_pos]
    intro kv hkv
    obtain ⟨q, hq2, rfl⟩ := List.mem_map.mp hkv
    rfl

unseal Rat.mul Rat.add Rat.sub Rat.inv in
/-- C5 witness: the amended theorem applied to a 2-point raw input for the
CLAUDE builder and a near-duplicate pair (distance 1e-13) that the CHATGPT
deduplication collapses to a single point. -/
theorem C5_witness :
    ([((0:ℚ),(0:ℚ)), (1,1)] : List Pt).length < 3 ∧
    (ChatGPT.unique_points (1/1000000000000) [(0,0), (0, 1/10000000000000)]).length < 3 ∧
    Claude.bowyer_watson [(0,0), (1,1)] = [] ∧
    (ChatGPT.bowyer_watson [(0,0), (0, 1/10000000000000)]).triangles = [] ∧
    PhaseOne.triangulation_delaunay_exc [] = none ∧
    PhaseOne.triangulation_delaunay [(5,7)] = [] := by
  have h := C5_amended [(0,0), (1,1)] [(0,0), (0, 1/10000000000000)] (by decide) (by decide)
  exact ⟨by decide, by decide, h.1, h.2.1, h.2.2.2.1, h.2.2.2.2.1⟩

unseal Rat.mul Rat.add Rat.sub Rat.inv in
/-- C9 counterexample: the COPILOT clipper has no near-zero guard: for the
edge from (-5e-13, 0) to (5e-13, 1), whose x-component 1e-12 is far below
epsilon, its left-stage intersection divides by that component and returns
(0, 1/2) instead of the direct projection (0, 0), and that vertex reaches the
output of a full rectangle clip. -/
theorem C9_counterexample :
    |((1/2000000000000 : ℚ) - (-1/2000000000000 : ℚ))| < Claude.EPS ∧
    Copilot.intersect_left 0 (-1/2000000000000, 0) (1/2000000000000, 1) = (0, 1/2) ∧
    ((0 : ℚ), (1/2 : ℚ)) ≠ ((0 : ℚ), (0 : ℚ)) ∧
    ((0:ℚ), (1/2:ℚ)) ∈ Copilot.clip_polygon_to_bbox
      [(-1/2000000000000, 0), (1/2000000000000, 1), (5,1), (5,0)] 0 10 0 10 := by decide

/-- C9 amended: in the CLAUDE variant the claim holds: whenever the edge
component along the clip axis is below EPS in magnitude, the intersection
routine returns the direct projection onto the clip line, so the dividing
branch only ever runs with a denominator of magnitude at least EPS.  The
CHATGPT variant's four per-stage intersection routines guard likewise (with a
non-strict |d| <= EPS test) and return the direct projection.  The COPILOT
variant has no such guard (see the counterexample). -/
theorem C9_amended (p1 p2 q1 q2 : Pt) (x y : ℚ)
    (hx : |p2.1 - p1.1| < Claude.EPS) (hy : |q2.2 - q1.2| < Claude.EPS)
    (s e s2 e2 : Pt) (gx gy : ℚ)
    (hgx : |e.1 - s.1| ≤ ChatGPT.EPS) (hgy : |e2.2 - s2.2| ≤ ChatGPT.EPS) :
    Claude.intersect_vertical p1 p2 x = (x, p1.2) ∧
    Claude.intersect_horizontal q1 q2 y = (q1.1, y) ∧
    ChatGPT.intersect_left gx s e = (gx, s.2) ∧
    ChatGPT.intersect_right gx s e = (gx, s.2) ∧
    ChatGPT.intersect_bottom gy s2 e2 = (s2.1, gy) ∧
    ChatGPT.intersect_top gy s2 e2 = (s2.1, gy) := by
  refine ⟨?_, ?_, ?_, ?_, ?_, ?_⟩
  · rw [Claude.intersect_vertical]
    simp only [hx, if_pos]
  · rw [Claude.intersect_horizontal]
    simp only [hy, if_pos]
  · rw [ChatGPT.intersect_left]
    simp only [hgx, if_pos]
  · rw [ChatGPT.intersect_right]
    simp only [hgx, if_pos]
  · rw [ChatGPT.intersect_bottom]
    simp only [hgy, if_pos]
  · rw [ChatGPT.intersect_top]
    simp only [hgy, if_pos]

unseal Rat.mul Rat.add Rat.sub Rat.inv in
/-- C9 witness: the amended theorem applied to concrete near-vertical and
near-horizontal edges for both the CLAUDE and the CHATGPT intersection
routines. -/
theorem C9_witness :
    |((1/2000000000000 : ℚ) - 0)| < Claude.EPS ∧
    |((1/100000000000 : ℚ) - 0)| ≤ ChatGPT.EPS ∧
    Claude.intersect_vertical (0, 0) (1/2000000000000, 1) 7 = (7, 0) ∧
    Claude.intersect_horizontal (0, 0) (1, 1/2000000000000) 9 = (0, 9) ∧
    ChatGPT.intersect_left 3 (0, 0) (1/100000000000, 1) = (3, 0) ∧
    ChatGPT.intersect_right 3 (0, 0) (1/100000000000, 1) = (3, 0) ∧
    ChatGPT.intersect_bottom 4 (0, 0) (1, 1/100000000000) = (0, 4) ∧
    ChatGPT.intersect_top 4 (0, 0) (1, 1/100000000000) = (0, 4) := by
  have h := C9_amended (0, 0) (1/2000000000000, 1) (0, 0) (1, 1/2000000000000) 7 9
    (by decide) (by decide) (0, 0) (1/100000000000, 1) (0, 0) (1, 1/100000000000) 3 4
    (by decide) (by decide)
  exact ⟨by decide, by decide, h.1, h.2.1, h.2.2.1, h.2.2.2.1, h.2.2.2.2.1, h.2.2.2.2.2⟩

/-- Concatenating per-pair emissions and folding is membership in some pair's
emission. -/
theorem mem_foldr_append {α β : Type} (l : List α) (f : α → List β) (v : β) :
    (v ∈ l.foldr (fun x acc => f x ++ acc) []) ↔ ∃ x ∈ l, v ∈ f x := by
  induction l with
  | nil => simp
  | cons x xs ih => simp [ih]

/-- A half-plane clip stage whose emissions are all inside returns the list of
current vertices unchanged. -/
theorem foldr_emit_all_inside (inf : Pt → Bool) (itf : Pt → Pt → Pt) :
    ∀ (xs ys : List Pt), xs.length = ys.length →
      (∀ q ∈ xs, inf q = true) → (∀ q ∈ ys, inf q = true) →
      (xs.zip ys).foldr (fun pc acc =>
        (if inf pc.2 then (if inf pc.1 then [pc.2] else [itf pc.1 pc.2, pc.2])
         else if inf pc.1 then [itf pc.1 pc.2] else []) ++ acc) [] = ys := by
  intro xs
  induction xs with
  | nil =>
    intro ys hlen _ _
    cases ys with
    | nil => rfl
    | cons y ys => simp at hlen
  | cons x xs ih =>
    intro ys hlen hx hy
    cases ys with
    | nil => simp at hlen
    | cons y ys =>
      have hxt : inf x = true := hx x (by simp)
      have hyt : inf y = true := hy y (by simp)
      simp only [List.zip_cons_cons, List.foldr_cons, hxt, hyt, if_true]
      rw [ih ys (by simpa using hlen) (fun q hq => hx q (by simp [hq]))
        (fun q hq => hy q (by simp [hq]))]
      rfl

/-- The CLAUDE half-plane clip leaves a polygon whose vertices are all inside
unchanged. -/
theorem clip_half_plane_all_inside (poly : List Pt) (inf : Pt → Bool) (itf : Pt → Pt → Pt)
    (h : ∀ p ∈ poly, inf p = true) : Claude.clip_half_plane poly inf itf = poly := by
  cases poly with
  | nil => rfl
  | cons p ps =>
    unfold Claude.clip_half_plane
    simp only []
    apply foldr_emit_all_inside
    · simp [List.length_dropLast]
    · intro q hq
      rcases List.mem_cons.mp hq with h1 | h2
      · subst h1
        exact h _ (List.getLastD_mem_cons ps p)
      · exact h _ (List.dropLast_subset _ h2)
    · exact h

/-- The CHATGPT generic polygon clip leaves a polygon whose vertices are all
inside unchanged. -/
theorem sh_polygon_clip_all_inside (poly : List Pt) (inf : Pt → Bool) (itf : Pt → Pt → Pt)
    (h : ∀ p ∈ poly, inf p = true) :
    ChatGPT.sutherland_hodgman_polygon_clip poly inf itf = poly := by
  cases poly with
  | nil => rfl
  | cons p ps =>
    unfold ChatGPT.sutherland_hodgman_polygon_clip
    simp only []
    apply foldr_emit_all_inside
    · simp [List.length_dropLast]
    · intro q hq
      rcases List.mem_cons.mp hq with h1 | h2
      · subst h1
        exact h _ (List.getLastD_mem_cons ps p)
      · exact h _ (List.dropLast_subset _ h2)
    · exact h

/-- C7: a nonempty polygon all of whose vertices lie inside the clip rectangle
is returned unchanged, with the same vertices in the same order, by both the
CLAUDE rectangle clipper and the CHATGPT rectangle clipper (whose inside tests
have an EPS slack, subsumed by exact containment). -/
theorem C7_theorem (poly : List Pt) (xmin xmax ymin ymax : ℚ) (qoly : List Pt)
    (bbox : ChatGPT.BBox)
    (h : ∀ p ∈ poly, xmin ≤ p.1 ∧ p.1 ≤ xmax ∧ ymin ≤ p.2 ∧ p.2 ≤ ymax)
    (hq : ∀ p ∈ qoly, bbox.xmin ≤ p.1 ∧ p.1 ≤ bbox.xmax ∧ bbox.ymin ≤ p.2 ∧ p.2 ≤ bbox.ymax) :
    Claude.sutherland_hodgman poly xmin xmax ymin ymax = poly ∧
    ChatGPT.clip_polygon_to_bbox qoly bbox = qoly := by
  constructor
  · unfold Claude.sutherland_hodgman
    simp only []
    rw [clip_half_plane_all_inside poly _ _ (fun p hp => decide_eq_true (h p hp).1),
      clip_half_plane_all_inside poly _ _ (fun p hp => decide_eq_true (h p hp).2.1),
      clip_half_plane_all_inside poly _ _ (fun p hp => decide_eq_true (h p hp).2.2.1),
      clip_half_plane_all_inside poly _ _ (fun p hp => decide_eq_true (h p hp).2.2.2)]
  · have heps : (0:ℚ) < ChatGPT.EPS := by norm_num [ChatGPT.EPS]
    have h1 : ∀ p ∈ qoly, decide (bbox.xmin - ChatGPT.EPS ≤ p.1) = true :=
      fun p hp => decide_eq_true (by linarith [(hq p hp).1])
    have h2 : ∀ p ∈ qoly, decide (p.1 ≤ bbox.xmax + ChatGPT.EPS) = true :=
      fun p hp => decide_eq_true (by linarith [(hq p hp).2.1])
    have h3 : ∀ p ∈ qoly, decide (bbox.ymin - ChatGPT.EPS ≤ p.2) = true :=
      fun p hp => decide_eq_true (by linarith [(hq p hp).2.2.1])
    have h4 : ∀ p ∈ qoly, decide (p.2 ≤ bbox.ymax + ChatGPT.EPS) = true :=
      fun p hp => decide_eq_true (by linarith [(hq p hp).2.2.2])
    rcases eq_or_ne qoly [] with rfl | hne
    · rfl
    · unfold ChatGPT.clip_polygon_to_bbox
      simp only [if_neg hne]
      rw [sh_polygon_clip_all_inside qoly _ _ h1]
      simp only [if_neg hne]
      rw [sh_polygon_clip_all_inside qoly _ _ h2]
      simp only [if_neg hne]
      rw [sh_polygon_clip_all_inside qoly _ _ h3]
      simp only [if_neg hne]
      rw [sh_polygon_clip_all_inside qoly _ _ h4]

unseal Rat.mul Rat.add Rat.sub Rat.inv in
/-- C7 witness: the theorem applied to a concrete triangle inside [0,3]x[0,3]
for both clippers. -/
theorem C7_witness :
    Claude.sutherland_hodgman [(1,1),(2,1),(2,2)] 0 3 0 3 = [(1,1),(2,1),(2,2)] ∧
    ChatGPT.clip_polygon_to_bbox [(1,1),(2,1),(2,2)] ⟨0, 0, 3, 3⟩ = [(1,1),(2,1),(2,2)] := by
  have h := C7_theorem [(1,1),(2,1),(2,2)] 0 3 0 3 [(1,1),(2,1),(2,2)] ⟨0, 0, 3, 3⟩
    (by decide) (by decide)
  exact h

/-- Every output vertex of the CLAUDE half-plane clip is either an inside
input vertex or the intersection of an edge whose endpoints straddle the
boundary test. -/
theorem mem_clip_half_plane (poly : List Pt) (inf : Pt → Bool) (itf : Pt → Pt → Pt) (v : Pt)
    (hv : v ∈ Claude.clip_half_plane poly inf itf) :
    (v ∈ poly ∧ inf v = true) ∨
    ∃ a b, a ∈ poly ∧ b ∈ poly ∧ inf a ≠ inf b ∧ v = itf a b := by
  cases poly with
  | nil => exact absurd hv (by simp [Claude.clip_half_plane])
  | cons p ps =>
    unfold Claude.clip_half_plane at hv
    simp only [] at hv
    rw [mem_foldr_append] at hv
    obtain ⟨pc, hpc, hvp⟩ := hv
    have hmem := List.of_mem_zip hpc
    have ha : pc.1 ∈ p :: ps := by
      rcases List.mem_cons.mp hmem.1 with h1 | h2
      · rw [h1]
        exact List.getLastD_mem_cons ps p
      · exact List.mem_of_mem_dropLast h2
    have hb : pc.2 ∈ p :: ps := hmem.2
    by_cases h2 : inf pc.2 = true <;> by_cases h1 : inf pc.1 = true <;>
      simp only [h1, h2, if_true, if_false] at hvp
    · rcases List.mem_singleton.mp hvp with rfl
      exact Or.inl ⟨hb, h2⟩
    · rcases List.mem_cons.mp hvp with rfl | hvp2
      · exact Or.inr ⟨pc.1, pc.2, ha, hb, by simp [h1, h2], rfl⟩
      · rcases List.mem_singleton.mp hvp2 with rfl
        exact Or.inl ⟨hb, h2⟩
    · rcases List.mem_singleton.mp hvp with rfl
      exact Or.inr ⟨pc.1, pc.2, ha, hb, by simp [h1, h2], rfl⟩
    · exact absurd hvp (by simp)

/-- The vertical intersection always lands on the clip line. -/
theorem intersect_vertical_fst (a b : Pt) (x : ℚ) :
    (Claude.intersect_vertical a b x).1 = x := by
  unfold Claude.intersect_vertical
  simp only []
  split <;> rfl

/-- The horizontal intersection always lands on the clip line. -/
theorem intersect_horizontal_snd (a b : Pt) (y : ℚ) :
    (Claude.intersect_horizontal a b y).2 = y := by
  unfold Claude.intersect_horizontal
  simp only []
  split <;> rfl

/-- When the clip line height lies between the endpoint heights, the
horizontal intersection's x-coordinate stays between the endpoint bounds:
the interpolation parameter lies in [0, 1], and the near-parallel fallback
returns the first endpoint's x. -/
theorem intersect_horizontal_fst_bounds (a b : Pt) (y lo hi : ℚ)
    (ha : lo ≤ a.1 ∧ a.1 ≤ hi) (hb : lo ≤ b.1 ∧ b.1 ≤ hi)
    (hbet : (a.2 ≤ y ∧ y ≤ b.2) ∨ (b.2 ≤ y ∧ y ≤ a.2)) :
    lo ≤ (Claude.intersect_horizontal a b y).1 ∧
    (Claude.intersect_horizontal a b y).1 ≤ hi := by
  unfold Claude.intersect_horizontal
  simp only []
  split
  · exact ha
  · rename_i hdy
    have heps : (0:ℚ) < Claude.EPS := by norm_num [Claude.EPS]
    have hdyne : b.2 - a.2 ≠ 0 := by
      intro h0
      rw [h0] at hdy
      simp at hdy
      linarith
    simp only []
    set t := (y - a.2) / (b.2 - a.2) with hts
    have ht : 0 ≤ t ∧ t ≤ 1 := by
      rcases hbet with ⟨hya, hyb⟩ | ⟨hya, hyb⟩
      · have hdy2 : 0 < b.2 - a.2 := by
          rcases lt_or_eq_of_le (by linarith : a.2 ≤ b.2) with h | h
          · linarith
          · exact absurd (by linarith : b.2 - a.2 = 0) hdyne
        constructor
        · rw [hts]
          exact div_nonneg (by linarith) (by linarith)
        · rw [hts, div_le_one hdy2]
          linarith
      · have hdy2 : b.2 - a.2 < 0 := by
          rcases lt_or_eq_of_le (by linarith : b.2 ≤ a.2) with h | h
          · linarith
          · exact absurd (by linarith : b.2 - a.2 = 0) hdyne
        constructor
        · rw [hts, div_nonneg_iff]
          exact Or.inr ⟨by linarith, by linarith⟩
        · rw [hts, div_le_one_of_neg hdy2]
          linarith
    constructor
    · nlinarith [mul_nonneg (by linarith [ht.2] : (0:ℚ) ≤ 1 - t) (by linarith [ha.1] : 0 ≤ a.1 - lo),
        mul_nonneg ht.1 (by linarith [hb.1] : 0 ≤ b.1 - lo)]
    · nlinarith [mul_nonneg (by linarith [ht.2] : (0:ℚ) ≤ 1 - t) (by linarith [ha.2] : 0 ≤ hi - a.1),
        mul_nonneg ht.1 (by linarith [hb.2] : 0 ≤ hi - b.1)]

/-- C8 amended: for the CLAUDE rectangle clipper the claim holds (in fact with
exact containment, which implies the claimed EPS slack): every vertex of the
clipped polygon lies in the rectangle, for every input polygon and rectangle.
The CHATGPT variant violates the claim (see the counterexample): its inside
slack lets an edge endpoint sit slightly outside the half-plane, making the
interpolation parameter negative and the intersection extrapolate. -/
theorem C8_amended (polygon : List Pt) (xmin xmax ymin ymax : ℚ) (v : Pt)
    (hv : v ∈ Claude.sutherland_hodgman polygon xmin xmax ymin ymax) :
    xmin - Claude.EPS ≤ v.1 ∧ v.1 ≤ xmax + Claude.EPS ∧
    ymin - Claude.EPS ≤ v.2 ∧ v.2 ≤ ymax + Claude.EPS := by
  have heps : (0:ℚ) < Claude.EPS := by norm_num [Claude.EPS]
  suffices hex : (xmin ≤ v.1 ∧ v.1 ≤ xmax) ∧ ymin ≤ v.2 ∧ v.2 ≤ ymax by
    refine ⟨by linarith [hex.1.1], by linarith [hex.1.2],
      by linarith [hex.2.1], by linarith [hex.2.2]⟩
  unfold Claude.sutherland_hodgman at hv
  simp only [] at hv
  set o1 := Claude.clip_half_plane polygon
    (fun p => decide (xmin ≤ p.1)) (fun a b => Claude.intersect_vertical a b xmin) with ho1
  set o2 := Claude.clip_half_plane o1
    (fun p => decide (p.1 ≤ xmax)) (fun a b => Claude.intersect_vertical a b xmax) with ho2
  set o3 := Claude.clip_half_plane o2
    (fun p => decide (ymin ≤ p.2)) (fun a b => Claude.intersect_horizontal a b ymin) with ho3
  have s1 : ∀ w, w ∈ o1 → xmin ≤ w.1 := by
    intro w hw
    rcases mem_clip_half_plane _ _ _ _ hw with ⟨hmem, hin⟩ | ⟨a, b, ha, hb, hne, rfl⟩
    · exact of_decide_eq_true hin
    · rw [intersect_vertical_fst]
  have s2 : ∀ w, w ∈ o2 → xmin ≤ w.1 ∧ w.1 ≤ xmax := by
    intro w hw
    rcases mem_clip_half_plane _ _ _ _ hw with ⟨hmem, hin⟩ | ⟨a, b, ha, hb, hne, rfl⟩
    · exact ⟨s1 w hmem, of_decide_eq_true hin⟩
    · rw [intersect_vertical_fst]
      have hxx : xmin ≤ xmax := by
        by_cases hA : a.1 ≤ xmax
        · exact le_trans (s1 a ha) hA
        · by_cases hB : b.1 ≤ xmax
          · exact le_trans (s1 b hb) hB
          · exact absurd (by simp [hA, hB]) hne
      exact ⟨hxx, le_refl xmax⟩
  have s3 : ∀ w, w ∈ o3 → (xmin ≤ w.1 ∧ w.1 ≤ xmax) ∧ ymin ≤ w.2 := by
    intro w hw
    rcases mem_clip_half_plane _ _ _ _ hw with ⟨hmem, hin⟩ | ⟨a, b, ha, hb, hne, rfl⟩
    · exact ⟨s2 w hmem, of_decide_eq_true hin⟩
    · have hbet : (a.2 ≤ ymin ∧ ymin ≤ b.2) ∨ (b.2 ≤ ymin ∧ ymin ≤ a.2) := by
        by_cases hA : ymin ≤ a.2 <;> by_cases hB : ymin ≤ b.2
        · exact absurd (by simp [hA, hB]) hne
        · exact Or.inr ⟨by linarith, hA⟩
        · exact Or.inl ⟨by linarith, hB⟩
        · exact absurd (by simp [hA, hB]) hne
      refine ⟨intersect_horizontal_fst_bounds a b ymin xmin xmax (s2 a ha) (s2 b hb) hbet, ?_⟩
      rw [intersect_horizontal_snd]
  rcases mem_clip_half_plane _ _ _ _ hv with ⟨hmem, hin⟩ | ⟨a, b, ha, hb, hne, rfl⟩
  · exact ⟨(s3 v hmem).1, (s3 v hmem).2, of_decide_eq_true hin⟩
  · have hbet : (a.2 ≤ ymax ∧ ymax ≤ b.2) ∨ (b.2 ≤ ymax ∧ ymax ≤ a.2) := by
      by_cases hA : a.2 ≤ ymax <;> by_cases hB : b.2 ≤ ymax
      · exact absurd (by simp [hA, hB]) hne
      · exact Or.inl ⟨hA, by linarith⟩
      · exact Or.inr ⟨hB, by linarith⟩
      · exact absurd (by simp [hA, hB]) hne
    have hyy : ymin ≤ ymax := by
      by_cases hA : a.2 ≤ ymax
      · exact le_trans (s3 a ha).2 hA
      · by_cases hB : b.2 ≤ ymax
        · exact le_trans (s3 b hb).2 hB
        · exact absurd (by simp [hA, hB]) hne
    refine ⟨intersect_horizontal_fst_bounds a b ymax xmin xmax (s3 a ha).1 (s3 b hb).1 hbet, ?_⟩
    rw [intersect_horizontal_snd]
    exact ⟨hyy, le_refl ymax⟩

unseal Rat.mul Rat.add Rat.sub Rat.inv in
/-- C8 counterexample: in the CHATGPT clipper, the polygon with vertices
(0, -5e-11), (1, -2.1e-10), (1/2, 1/2) clipped to the unit square produces
the vertex (-5/16, 0), which lies far outside the rectangle's x-range minus
EPS: the first vertex sits in the EPS slack band below y = 0, so the bottom
stage interpolates with a negative parameter and extrapolates past x = 0. -/
theorem C8_counterexample :
    ChatGPT.clip_polygon_to_bbox
      [(0, -1/20000000000), (1, -21/100000000000), (1/2, 1/2)] ⟨0, 0, 1, 1⟩ =
      [(0, -1/20000000000), (-5/16, 0), (100000000021/100000000042, 0), (1/2, 1/2)] ∧
    ((-5/16 : ℚ) < 0 - ChatGPT.EPS) := by decide

unseal Rat.mul Rat.add Rat.sub Rat.inv in
/-- C8 witness: the amended theorem applied to the spec's scenario-4 diamond
clipped to the unit 10-box and its output vertex (2, 0). -/
theorem C8_witness :
    ((2:ℚ), (0:ℚ)) ∈ Claude.sutherland_hodgman [(-3,5),(5,13),(13,5),(5,-3)] 0 10 0 10 ∧
    (0 - Claude.EPS ≤ (2:ℚ) ∧ (2:ℚ) ≤ 10 + Claude.EPS ∧
     0 - Claude.EPS ≤ (0:ℚ) ∧ (0:ℚ) ≤ 10 + Claude.EPS) :=
  ⟨by decide, C8_amended [(-3,5),(5,13),(13,5),(5,-3)] 0 10 0 10 (2, 0) (by decide)⟩

/-- Looking up a key of an association list built by mapping each element to a
key-value pair keyed by itself. -/
theorem lookup_map_self (l : List Pt) (f : Pt → List Pt) (p : Pt) (hp : p ∈ l) :
    (l.map (fun q => (q, f q))).lookup p = some (f p) := by
  induction l with
  | nil => simp at hp
  | cons q qs ih =>
    by_cases hpq : p = q
    · subst hpq
      simp [List.lookup]
    · have : p ∈ qs := by
        rcases List.mem_cons.mp hp with h1 | h2
        · exact absurd h1 hpq
        · exact h2
      simp only [List.map_cons, List.lookup]
      rw [show (p == q) = false from beq_eq_false_iff_ne.mpr hpq]
      exact ih this

/-- A cell built by the CLAUDE `_build_cell` always has at least 3 vertices. -/
theorem build_cell_some_length (sqrtFn : ℚ → ℚ) (site : Pt) (adj : List Claude.Triangle)
    (hull : List ((Pt × Pt) × Claude.Triangle)) (ctr : Pt) (far xmin xmax ymin ymax : ℚ)
    (cell : List Pt)
    (h : Claude.build_cell sqrtFn site adj hull ctr far xmin xmax ymin ymax = some cell) :
    3 ≤ cell.length := by
  unfold Claude.build_cell at h
  simp only [] at h
  split at h
  · exact absurd h (by simp)
  · split at h
    · rename_i hlen
      obtain rfl := Option.some.inj h
      exact hlen
    · exact absurd h (by simp)

/-- Membership in the CLAUDE Voronoi cell dictionary: exactly the in-range
site indices whose per-site cell construction succeeds, with that cell. -/
theorem mem_compute_voronoi (sqrtFn : ℚ → ℚ) (pts : List Pt)
    (tris : List Claude.Triangle) (bbox : ℚ × ℚ × ℚ × ℚ) (j : Nat) (cell : List Pt) :
    (j, cell) ∈ Claude.compute_voronoi sqrtFn pts tris bbox ↔
    ∃ hj : j < pts.length,
      Claude.site_cell sqrtFn pts tris bbox (pts.get ⟨j, hj⟩) = some cell := by
  unfold Claude.compute_voronoi
  rw [List.mem_filterMap]
  constructor
  · rintro ⟨ip, hip, hmap⟩
    rw [Option.map_eq_some'] at hmap
    obtain ⟨c, hc, heq⟩ := hmap
    rw [Prod.mk.injEq] at heq
    obtain ⟨h1, rfl⟩ := heq
    have hg : pts[ip.1]? = some ip.2 := List.mem_enum_iff_getElem?.mp hip
    obtain ⟨hlt, hget⟩ := List.getElem?_eq_some.mp hg
    subst h1
    refine ⟨hlt, ?_⟩
    rw [List.get_eq_getElem, hget]
    exact hc
  · rintro ⟨hj, hcell⟩
    refine ⟨(j, pts.get ⟨j, hj⟩), ?_, ?_⟩
    · rw [List.mem_enum_iff_getElem?]
      exact List.getElem?_eq_some.mpr ⟨hj, by rw [List.get_eq_getElem]⟩
    · rw [hcell]
      rfl

/-- Accumulator invariant of the COPILOT cell fold: only polygons with at
least 3 vertices are ever appended. -/
theorem copilot_foldl_inv (points bp : List Pt) (nbm : List (Nat × List Nat))
    (l : List (Nat × Pt)) (acc : List (Nat × List Pt))
    (hacc : ∀ e ∈ acc, 3 ≤ e.2.length) :
    ∀ e ∈ l.foldl (fun cells ip =>
        let nbs := ((nbm.lookup ip.1).getD [])
        if nbs = [] then cells
        else
          let poly := Copilot.clip_neighbors_loop points ip.2 nbs bp
          if 3 ≤ poly.length then cells ++ [(ip.1, poly)] else cells) acc,
      3 ≤ e.2.length := by
  induction l generalizing acc with
  | nil => exact hacc
  | cons hd tl ih =>
    rw [List.foldl_cons]
    apply ih
    simp only []
    split
    · exact hacc
    · split
      · rename_i hlen
        intro e he
        rcases List.mem_append.mp he with h1 | h2
        · exact hacc e h1
        · rw [List.mem_singleton.mp h2]
          exact hlen
      · exact hacc

/-- Every entry of the COPILOT cell mapping carries a polygon with at least
3 vertices: sub-3-vertex cells are dropped by the final length guard. -/
theorem copilot_cells_length (points : List Pt) (triangles : List Copilot.Triangle)
    (i : Nat) (cell : List Pt)
    (hmem : (i, cell) ∈ Copilot.build_voronoi_cells points triangles) :
    3 ≤ cell.length := by
  unfold Copilot.build_voronoi_cells at hmem
  split at hmem
  · exact absurd hmem (List.not_mem_nil _)
  · simp only [] at hmem
    exact copilot_foldl_inv points _ _ points.enum []
      (fun e he => absurd he (List.not_mem_nil _)) (i, cell) hmem

unseal Rat.mul Rat.add Rat.sub Rat.inv in
/-- C6 counterexample: in the CHATGPT Voronoi builder, the site (1,0), whose
candidate polygon clips to the empty polygon (fewer than 3 vertices) against
the rectangle [-1, 1/5] x [-1, 1], is NOT omitted: it remains a key of the
returned cell mapping, bound to the empty polygon, while the other site's
4-vertex cell is computed. -/
theorem C6_counterexample :
    ((ChatGPT.build_voronoi_from_delaunay [(0,0),(1,0)] []
        [((0,0), [(1,0)]), ((1,0), [(0,0)])] ⟨-1, -1, 1/5, 1⟩).cells).lookup (1,0) =
      some [] ∧
    ((ChatGPT.build_voronoi_from_delaunay [(0,0),(1,0)] []
        [((0,0), [(1,0)]), ((1,0), [(0,0)])] ⟨-1, -1, 1/5, 1⟩).cells).lookup (0,0) =
      some [(-1,-1), (1/5,-1), (1/5,1), (-1,1)] := by decide

/-- C6 amended: the CLAUDE and COPILOT builders do omit sites whose clipped
polygon has fewer than 3 vertices - formalized as: every cell present in
either returned mapping has at least 3 vertices (for CLAUDE, absence is
moreover exactly failure of the per-site construction); no exception
interrupts the other sites. The CHATGPT builder instead keeps EVERY input
site as a key of its cell mapping, bound to the (possibly sub-3-vertex)
clipped polygon. -/
theorem C6_amended (sqrtFn : ℚ → ℚ) (pts : List Pt) (tris : List Claude.Triangle)
    (bbox : ℚ × ℚ × ℚ × ℚ) (i : Nat) (cell : List Pt)
    (hmem : (i, cell) ∈ Claude.compute_voronoi sqrtFn pts tris bbox)
    (cpoints : List Pt) (ctris : List Copilot.Triangle) (ci : Nat) (ccell : List Pt)
    (hcmem : (ci, ccell) ∈ Copilot.build_voronoi_cells cpoints ctris)
    (points : List Pt) (gtris : List ChatGPT.Triangle)
    (neighbors : List (Pt × List Pt)) (gbbox : ChatGPT.BBox) (p : Pt) (hp : p ∈ points) :
    3 ≤ cell.length ∧
    3 ≤ ccell.length ∧
    ((ChatGPT.build_voronoi_from_delaunay points gtris neighbors gbbox).cells).lookup p =
      some (ChatGPT.cell_from_neighbors p ((neighbors.lookup p).getD []) gbbox) := by
  refine ⟨?_, copilot_cells_length cpoints ctris ci ccell hcmem, ?_⟩
  · obtain ⟨hj, hcell⟩ := (mem_compute_voronoi sqrtFn pts tris bbox i cell).mp hmem
    unfold Claude.site_cell at hcell
    exact build_cell_some_length _ _ _ _ _ _ _ _ _ _ _ hcell
  · unfold ChatGPT.build_voronoi_from_delaunay
    simp only []
    exact lookup_map_self points _ p hp

unseal Rat.mul Rat.add Rat.sub Rat.inv in
/-- C6 witness: the amended theorem applied to a one-triangle CLAUDE Voronoi
computation (site 0 receives a 3-vertex cell), a one-triangle COPILOT cell
mapping (site 0 receives a 4-vertex cell), and the CHATGPT counterexample
configuration at site (0,0). -/
theorem C6_witness :
    (3 : Nat) ≤ ([((1:ℚ),(3/4:ℚ)), (1,3/4), (1,3/4)] : List Pt).length ∧
    (3 : Nat) ≤ ([((-2:ℚ),(2:ℚ)), (-2,-2), (2,-2), (2,2)] : List Pt).length ∧
    ((ChatGPT.build_voronoi_from_delaunay [(0,0),(1,0)] []
        [((0,0), [(1,0)]), ((1,0), [(0,0)])] ⟨-1, -1, 1/5, 1⟩).cells).lookup (0,0) =
      some (ChatGPT.cell_from_neighbors (0,0)
        (([((0,0), [(1,0)]), ((1,0), [(0,0)])].lookup ((0:ℚ),(0:ℚ))).getD [])
        ⟨-1, -1, 1/5, 1⟩) :=
  C6_amended (fun _ => 0) [(0,0),(2,0),(1,2)] [Claude.Triangle.mk (0,0) (2,0) (1,2)]
    (-5, 5, -5, 5) 0 [(1,3/4), (1,3/4), (1,3/4)] (by decide)
    [(0,0),(4,0),(0,4)] [⟨(0,1,2), (2,2), 8⟩] 0 [(-2,2), (-2,-2), (2,-2), (2,2)]
    (by decide)
    [(0,0),(1,0)] [] [((0,0), [(1,0)]), ((1,0), [(0,0)])] ⟨-1, -1, 1/5, 1⟩ (0,0) (by decide)

/-- A site all of whose incident triangles are degenerate gets no finite
Voronoi vertices. -/
theorem finite_verts_eq_nil (adj : List Claude.Triangle)
    (h : ∀ t ∈ adj, t.circumcircle = none) : Claude.finite_verts adj = [] := by
  unfold Claude.finite_verts
  rw [List.filterMap_eq_nil_iff]
  intro t ht
  rw [h t ht]
  rfl

/-- The CLAUDE `_build_cell` fails on a site with no finite Voronoi vertex. -/
theorem build_cell_none_of_no_finite (sqrtFn : ℚ → ℚ) (site : Pt)
    (adj : List Claude.Triangle) (hull : List ((Pt × Pt) × Claude.Triangle))
    (ctr : Pt) (far xmin xmax ymin ymax : ℚ)
    (h : Claude.finite_verts adj = []) :
    Claude.build_cell sqrtFn site adj hull ctr far xmin xmax ymin ymax = none := by
  unfold Claude.build_cell
  simp only []
  rw [if_pos h]

/-- C10: in the CLAUDE `compute_voronoi`, a site all of whose incident
triangles have a degenerate (infinite-sentinel) circumcenter is silently
absent from the returned cell mapping - no entry carries its index - and the
entries of all sites are exactly characterized, independently of that site, as
the in-range indices whose own per-site cell construction succeeds. -/
theorem C10_theorem (sqrtFn : ℚ → ℚ) (pts : List Pt) (tris : List Claude.Triangle)
    (bbox : ℚ × ℚ × ℚ × ℚ) (i : Nat) (hi : i < pts.length)
    (hdeg : ∀ t ∈ Claude.adjacent_triangles tris (pts.get ⟨i, hi⟩), t.circumcircle = none) :
    (∀ cell, (i, cell) ∉ Claude.compute_voronoi sqrtFn pts tris bbox) ∧
    (∀ j cell, (j, cell) ∈ Claude.compute_voronoi sqrtFn pts tris bbox ↔
      ∃ hj : j < pts.length,
        Claude.site_cell sqrtFn pts tris bbox (pts.get ⟨j, hj⟩) = some cell) := by
  refine ⟨?_, fun j cell => mem_compute_voronoi sqrtFn pts tris bbox j cell⟩
  intro cell hmem
  obtain ⟨hj, hcell⟩ := (mem_compute_voronoi sqrtFn pts tris bbox i cell).mp hmem
  unfold Claude.site_cell at hcell
  rw [build_cell_none_of_no_finite] at hcell
  · exact Option.noConfusion hcell
  · exact finite_verts_eq_nil _ hdeg

unseal Rat.mul Rat.add Rat.sub Rat.inv in
/-- C10 witness: the theorem applied to three collinear sites whose only
triangle is degenerate: site 0 is absent from the mapping, and the
characterization instantiated at index 1 and a concrete cell. -/
theorem C10_witness :
    (0 : Nat) < ([((0:ℚ),(0:ℚ)), (1,0), (2,0)] : List Pt).length ∧
    (∀ cell, (0, cell) ∉ Claude.compute_voronoi (fun _ => 0)
      [(0,0), (1,0), (2,0)] [Claude.Triangle.mk (0,0) (1,0) (2,0)] (-1, 3, -1, 1)) ∧
    ¬ ((1, ([] : List Pt)) ∈ Claude.compute_voronoi (fun _ => 0)
      [(0,0), (1,0), (2,0)] [Claude.Triangle.mk (0,0) (1,0) (2,0)] (-1, 3, -1, 1)) := by
  have h := C10_theorem (fun _ => 0) [(0,0), (1,0), (2,0)]
    [Claude.Triangle.mk (0,0) (1,0) (2,0)] (-1, 3, -1, 1) 0 (by decide) (by decide)
  refine ⟨by decide, h.1, ?_⟩
  intro hmem
  obtain ⟨hj, hcell⟩ := (h.2 1 []).mp hmem
  have h3 := build_cell_some_length _ _ _ _ _ _ _ _ _ _ _ (by
    unfold Claude.site_cell at hcell
    exact hcell)
  simp at h3

set_option maxRecDepth 16000 in
unseal Rat.mul Rat.add Rat.sub Rat.inv in
/-- C1 counterexample: four distinct, non-collinear input points on which BOTH
cited builders violate the empty-circumcircle property.  CLAUDE: the final
triangulation contains a sliver triangle whose circumcircle strictly contains
(by far more than EPS) the input point (-3,4), which is not one of its
vertices - two of the inputs are about 2e-9 apart, the near-duplicate is
missed during insertion because its containment margin is below EPS, and the
retriangulation produces a non-Delaunay sliver.  CHATGPT: its deduplication
(math.isclose with the default relative tolerance 1e-9) collapses the
near-duplicate pair, and the surviving triangle's circumcircle strictly
contains the dropped input point, which is a vertex of no output triangle. -/
theorem C1_counterexample :
    Claude.Triangle.mk (5,0) (3,4) (300000000187/100000000000, 79999999971/20000000000) ∈
      Claude.bowyer_watson
        [(3,4), (5,0), (-3,4), (300000000187/100000000000, 79999999971/20000000000)] ∧
    ((-3,4) : Pt) ∈
      ([(3,4), (5,0), (-3,4), (300000000187/100000000000, 79999999971/20000000000)] : List Pt) ∧
    ((-3,4) : Pt) ≠ (5,0) ∧ ((-3,4) : Pt) ≠ (3,4) ∧
    ((-3,4) : Pt) ≠ (300000000187/100000000000, 79999999971/20000000000) ∧
    (Claude.Triangle.mk (5,0) (3,4)
      (300000000187/100000000000, 79999999971/20000000000)).in_circumcircle (-3,4) = true ∧
    (ChatGPT.bowyer_watson
        [(3,4), (5,0), (-3,4), (300000000187/100000000000, 79999999971/20000000000)]).triangles =
      [ChatGPT.Triangle.mk (3,4) (5,0) (-3,4)] ∧
    ((300000000187/100000000000, 79999999971/20000000000) : Pt) ≠ (3,4) ∧
    ((300000000187/100000000000, 79999999971/20000000000) : Pt) ≠ (5,0) ∧
    ((300000000187/100000000000, 79999999971/20000000000) : Pt) ≠ (-3,4) ∧
    ChatGPT.in_circumcircle (ChatGPT.Triangle.mk (3,4) (5,0) (-3,4))
      (300000000187/100000000000, 79999999971/20000000000) = true := by
  decide

set_option maxRecDepth 16000 in
unseal Rat.mul Rat.add Rat.sub Rat.inv in
/-- C1 amended: the empty-circumcircle property does hold, for every output
triangle against every nonvertex input point, on the spec's canonical
scenario inputs (unit square, right triangles, a well-spread 7-point cloud)
for both the CLAUDE and the CHATGPT builders; as a universal statement over
all inputs the property fails for both builders (see the counterexample). -/
theorem C1_amended :
    delaunayPropertyClaude [(0,0),(1,0),(1,1),(0,1)] = true ∧
    delaunayPropertyClaude [(0,0),(1,0),(0,1)] = true ∧
    delaunayPropertyClaude [(0,0),(4,0),(0,3)] = true ∧
    delaunayPropertyClaude [(0,0),(4,0),(5,3),(2,5),(-1,3),(2,2),(1,4)] = true ∧
    delaunayPropertyGPT [(0,0),(1,0),(1,1),(0,1)] = true ∧
    delaunayPropertyGPT [(0,0),(1,0),(0,1)] = true ∧
    delaunayPropertyGPT [(0,0),(4,0),(5,3),(2,5),(-1,3),(2,2),(1,4)] = true ∧
    delaunayPropertyGPT [(0,0),(4,0),(0,3)] = true := by
  decide

set_option maxRecDepth 16000 in
unseal Rat.mul Rat.add Rat.sub Rat.inv in
/-- C2 counterexample: three distinct, non-collinear points (signed doubled
area 1/9, a thin triangle whose circumcircle reaches beyond the finite super
triangle) for which both the CHATGPT and the CLAUDE Bowyer-Watson builders
return ZERO triangles, violating the lower bound n - 2 = 1. -/
theorem C2_counterexample :
    ([((1:ℚ),(5/3:ℚ)), (10/3,3), (5,4)] : List Pt).length = 3 ∧
    ((1:ℚ),(5/3:ℚ)) ≠ ((10/3:ℚ),(3:ℚ)) ∧
    ((1:ℚ),(5/3:ℚ)) ≠ ((5:ℚ),(4:ℚ)) ∧
    ((10/3:ℚ),(3:ℚ)) ≠ ((5:ℚ),(4:ℚ)) ∧
    ChatGPT.orientation (1,5/3) (10/3,3) (5,4) ≠ 0 ∧
    (ChatGPT.bowyer_watson [(1,5/3),(10/3,3),(5,4)]).triangles.length = 0 ∧
    (Claude.bowyer_watson [(1,5/3),(10/3,3),(5,4)]).length = 0 ∧
    (PhaseOne.triangulation_delaunay [(1,5/3),(10/3,3),(5,4)]).length = 0 := by decide

set_option maxRecDepth 16000 in
unseal Rat.mul Rat.add Rat.sub Rat.inv in
/-- C2 amended: the triangle-count bound n - 2 <= T <= 2n does hold on the
spec's canonical scenario inputs for all three cited builders (unit square:
T = 2 with n = 4; right triangle: T = 1 with n = 3; well-spread 7-point
cloud: T = 7), but fails in general for thin non-collinear inputs (see the
counterexample). -/
theorem C2_amended :
    (4 - 2 ≤ (ChatGPT.bowyer_watson [(0,0),(1,0),(1,1),(0,1)]).triangles.length ∧
      (ChatGPT.bowyer_watson [(0,0),(1,0),(1,1),(0,1)]).triangles.length ≤ 2 * 4) ∧
    (3 - 2 ≤ (ChatGPT.bowyer_watson [(0,0),(1,0),(0,1)]).triangles.length ∧
      (ChatGPT.bowyer_watson [(0,0),(1,0),(0,1)]).triangles.length ≤ 2 * 3) ∧
    (7 - 2 ≤ (ChatGPT.bowyer_watson [(0,0),(4,0),(5,3),(2,5),(-1,3),(2,2),(1,4)]).triangles.length ∧
      (ChatGPT.bowyer_watson [(0,0),(4,0),(5,3),(2,5),(-1,3),(2,2),(1,4)]).triangles.length ≤ 2 * 7) ∧
    (4 - 2 ≤ (Claude.bowyer_watson [(0,0),(1,0),(1,1),(0,1)]).length ∧
      (Claude.bowyer_watson [(0,0),(1,0),(1,1),(0,1)]).length ≤ 2 * 4) ∧
    (3 - 2 ≤ (Claude.bowyer_watson [(0,0),(1,0),(0,1)]).length ∧
      (Claude.bowyer_watson [(0,0),(1,0),(0,1)]).length ≤ 2 * 3) ∧
    (7 - 2 ≤ (Claude.bowyer_watson [(0,0),(4,0),(5,3),(2,5),(-1,3),(2,2),(1,4)]).length ∧
      (Claude.bowyer_watson [(0,0),(4,0),(5,3),(2,5),(-1,3),(2,2),(1,4)]).length ≤ 2 * 7) ∧
    (4 - 2 ≤ (PhaseOne.triangulation_delaunay [(0,0),(1,0),(1,1),(0,1)]).length ∧
      (PhaseOne.triangulation_delaunay [(0,0),(1,0),(1,1),(0,1)]).length ≤ 2 * 4) ∧
    (3 - 2 ≤ (PhaseOne.triangulation_delaunay [(0,0),(1,0),(0,1)]).length ∧
      (PhaseOne.triangulation_delaunay [(0,0),(1,0),(0,1)]).length ≤ 2 * 3) ∧
    (7 - 2 ≤ (PhaseOne.triangulation_delaunay [(0,0),(4,0),(5,3),(2,5),(-1,3),(2,2),(1,4)]).length ∧
      (PhaseOne.triangulation_delaunay [(0,0),(4,0),(5,3),(2,5),(-1,3),(2,2),(1,4)]).length ≤ 2 * 7) := by
  decide
